import Mathlib

/-!
Verification of the League-of-Legends match/timeline analysis engine
(`src/media_buddy/riot_analyzer.py`) against its specification.

The Python module is shallowly embedded: every analyzer function is
translated into an executable Lean definition over typed records that
mirror the JSON payloads the source manipulates.  Python `dict.get`
with a default is modelled by `Option.getD`; `dict.get` without a
default by an `Option`-valued field; Python dicts used as maps are
modelled as association lists in insertion order (matching CPython's
ordered-dict iteration); millisecond timestamps are `Int`;
`round(x, 2)` values are `ℚ`.
-/

namespace RiotAnalyzer

/-- Position of a participant on the map, from a participant frame's
`position` entry (`{x, y}`). -/
structure Position where
  x : Int
  y : Int
deriving DecidableEq, Repr, Inhabited

/-- Per-participant state inside one timeline frame
(`frame['participantFrames'][str(id)]`).  The numeric fields are read by
the source either directly (`p['totalGold']`) or via `.get(k, 0)`; in
well-formed Riot payloads they are always present, so they are modelled
as plain fields.  `position` is read via `.get('position', {})` with an
empty-dict (falsy) default, hence `Option`. -/
structure ParticipantFrame where
  participantId : Nat
  minionsKilled : Int
  jungleMinionsKilled : Int
  totalGold : Int
  position : Option Position
deriving DecidableEq, Repr, Inhabited

/-- A timeline event.  The source only ever reads `type` and `timestamp`
directly; every other key is accessed through `.get`, so those are
`Option`-valued here (`none` models an absent key). -/
structure Event where
  type : String
  timestamp : Int
  killerId : Option Nat
  victimId : Option Nat
  assistingParticipantIds : Option (List Nat)
  killerTeamId : Option Nat
  monsterType : Option String
  monsterSubType : Option String
  itemId : Option Int
  participantId : Option Nat
deriving DecidableEq, Repr, Inhabited

/-- One per-minute timeline frame: `{'timestamp', 'participantFrames',
'events'}`.  `participantFrames` is a dict keyed by the decimal string of
the participant id; it is modelled as an association list in insertion
order. -/
structure Frame where
  timestamp : Int
  participantFrames : List (String × ParticipantFrame)
  events : List Event
deriving DecidableEq, Repr, Inhabited

/-- The timeline payload, reduced to the only part the analyzers read:
`timeline_data['info']['frames']`. -/
structure TimelineData where
  frames : List Frame
deriving DecidableEq, Repr, Inhabited

/-- A participant record from `match_data['info']['participants']`.
`participantId` is read with direct indexing in the source; fields whose
Python truthiness or `None`-ness is load-bearing (`teamId`,
`teamPosition`, `individualPosition`, `lane`) are `Option`-valued.  The
remaining summary fields are present in every well-formed payload and
modelled as plain fields. -/
structure Participant where
  puuid : Option String
  participantId : Nat
  championName : String
  teamId : Option Nat
  teamPosition : Option String
  individualPosition : Option String
  lane : Option String
  kills : Int
  deaths : Int
  assists : Int
  win : Bool
  kda : Option ℚ
  killParticipation : Option ℚ
  totalDamageDealtToChampions : Int
  visionScore : Int
deriving DecidableEq, Repr, Inhabited

/-- The match payload, reduced to what the analyzers read:
`metadata.participants` (the PUUID list) and `info.participants`. -/
structure MatchData where
  metadataParticipants : List String
  infoParticipants : List Participant
deriving DecidableEq, Repr, Inhabited

/-- Python truthiness of an optional string: `None` and `''` are falsy. -/
def truthyStr (s : Option String) : Bool :=
  match s with
  | none => false
  | some s => !(s = "")

/-- Python truthiness of an optional integer: `None` and `0` are falsy. -/
def truthyNat (n : Option Nat) : Bool :=
  match n with
  | none => false
  | some n => !(n = 0)

/-- Python `a or b` on two optional strings: yields `a` when `a` is
truthy, else `b`. -/
def pyOr (a b : Option String) : Option String :=
  if truthyStr a then a else b

/-- Model of Python `round(x, 2)` as used on `timestamp / 60000` values.
Python rounds ties to even on binary floats; this model rounds ties up.
The two differ only at exact half-hundredths, and no theorem below
depends on tie behaviour -/
def round2 (q : ℚ) : ℚ := ((q * 100 + 1 / 2).floor : ℚ) / 100

/-- Strict lexicographic order on character lists by code point; this is
how Python compares strings. -/
def charListLt : List Char → List Char → Bool
  | [], [] => false
  | [], _ :: _ => true
  | _ :: _, [] => false
  | a :: as, b :: bs =>
    if a.toNat < b.toNat then true
    else if b.toNat < a.toNat then false
    else charListLt as bs

/-- Insert a string into an ascending list, keeping it ascending. -/
def insertSorted (s : String) : List String → List String
  | [] => [s]
  | t :: ts => if charListLt t.data s.data then t :: insertSorted s ts else s :: t :: ts

/-- Model of Python `sorted()` on a list of strings (insertion sort by
code-point lexicographic order). -/
def pySorted (l : List String) : List String := l.foldr insertSorted []

/-- Python `set.add`-style insertion into a list representing a set. -/
def addIfAbsent (s : String) (l : List String) : List String :=
  if s ∈ l then l else l ++ [s]

/-- Embedding of `_get_player_participant_data` (riot_analyzer.py:9-35).
Looks up the PUUID's index in `metadata.participants`, reads the
participant at the same index of `info.participants`, sanity-checks it,
and otherwise falls back to a linear scan; `None` (here `none`) when the
PUUID cannot be resolved.  The Python `ValueError` of `list.index` and
`IndexError` of list indexing are the `none` branches of `findIdx?` and
`getElem?`. -/
def _get_player_participant_data (m : MatchData) (puuid : String) : Option Participant :=
  match m.metadataParticipants.findIdx? (fun p => p = puuid) with
  | none => none
  | some player_index =>
    match m.infoParticipants[player_index]? with
    | none => none
    | some player_data =>
      if player_data.puuid = some puuid ∨ player_data.participantId = player_index + 1 then
        some player_data
      else
        m.infoParticipants.find? (fun p => p.puuid = some puuid)

/-- Embedding of `_find_lane_opponent` (riot_analyzer.py:37-49): the
first participant on the other team playing the same position.  The
position is `teamPosition or individualPosition` with Python truthiness;
a falsy position or team id yields `none`. -/
def _find_lane_opponent (all_participants : List Participant) (player_data : Participant) :
    Option Participant :=
  let player_position := pyOr player_data.teamPosition player_data.individualPosition
  let player_team_id := player_data.teamId
  if !truthyStr player_position ∨ !truthyNat player_team_id then none
  else
    all_participants.find? (fun p =>
      let opponent_position := pyOr p.teamPosition p.individualPosition
      p.teamId ≠ player_team_id ∧ opponent_position = player_position)

/-- The six numeric fields returned by `_analyze_laning_phase` on
success. -/
structure LaningStats where
  cs_at_10 : Int
  opponent_cs_at_10 : Int
  cs_lead_at_10 : Int
  gold_at_10 : Int
  opponent_gold_at_10 : Int
  gold_lead_at_10 : Int
deriving DecidableEq, Repr

/-- Embedding of `_analyze_laning_phase` (riot_analyzer.py:51-77).
Reads frame index 10; a missing frame (the Python `IndexError`) or a
missing participant entry in it yields the structured error dict, here
`Except.error`. -/
def _analyze_laning_phase (timeline_data : TimelineData) (player_participant_id : Nat)
    (opponent_participant_id : Nat) : Except String LaningStats :=
  match timeline_data.frames[10]? with
  | none => .error "Could not process timeline data for laning phase: IndexError"
  | some frame =>
    let frame_10 := frame.participantFrames
    match frame_10.lookup (toString player_participant_id),
          frame_10.lookup (toString opponent_participant_id) with
    | some player_frame, some opponent_frame =>
      let player_cs := player_frame.minionsKilled + player_frame.jungleMinionsKilled
      let player_gold := player_frame.totalGold
      let opponent_cs := opponent_frame.minionsKilled + opponent_frame.jungleMinionsKilled
      let opponent_gold := opponent_frame.totalGold
      .ok { cs_at_10 := player_cs
          , opponent_cs_at_10 := opponent_cs
          , cs_lead_at_10 := player_cs - opponent_cs
          , gold_at_10 := player_gold
          , opponent_gold_at_10 := opponent_gold
          , gold_lead_at_10 := player_gold - opponent_gold }
    | _, _ => .error "Could not find player or opponent frame data at 10 minutes."

/-- Concatenation of all frames' event lists, the
`all_events` accumulation repeated at the top of every analyzer. -/
def allEvents (timeline_data : TimelineData) : List Event :=
  timeline_data.frames.flatMap (fun frame => frame.events)

/-- A fight record as emitted by `_analyze_teamfights`
(riot_analyzer.py:108-114).  The source initialises `kills` to the empty
list and never appends to it; `_consolidate_fights_into_engagements`
later overwrites it with `None`, hence the `Option`. -/
structure FightSummary where
  start_time_minutes : ℚ
  kills : Option (List Event)
  blue_team_kills : Nat
  red_team_kills : Nat
  player_involvement : String
deriving DecidableEq, Repr

/-- The kill cluster opened at index `i` of the kill-event list: the
kill at `i` followed by every immediately subsequent kill whose
timestamp is within `FIGHT_WINDOW_SECONDS * 1000 = 20000` ms of it
(riot_analyzer.py:97-105; the inner `for`/`break` loop is `takeWhile`).
Empty when `i` is out of range. -/
def clusterAt (kill_events : List Event) (i : Nat) : List Event :=
  match kill_events[i]? with
  | none => []
  | some start_kill =>
    start_kill ::
      (kill_events.drop (i + 1)).takeWhile
        (fun next_kill => next_kill.timestamp ≤ start_kill.timestamp + 20 * 1000)

/-- One iteration of the outer loop of `_analyze_teamfights`
(riot_analyzer.py:93-140) at index `i`: skip if `i` was already
processed, otherwise open the cluster at `i` and, when it has at least
`FIGHT_MIN_KILLS = 3` kills, emit it and mark every member's index
(`kill_events.index(kill)`, i.e. the first occurrence) processed. -/
def teamfightsStep (kill_events : List Event)
    (acc : List (List Event) × Finset Nat) (i : Nat) :
    List (List Event) × Finset Nat :=
  if i ∈ acc.2 then acc
  else
    let current_fight_kills := clusterAt kill_events i
    if 3 ≤ current_fight_kills.length then
      (acc.1 ++ [current_fight_kills],
       acc.2 ∪ (current_fight_kills.map (fun kill => kill_events.indexOf kill)).toFinset)
    else acc

/-- The kill clusters emitted by the fight-clustering pass, in emission
order. -/
def teamfightClusters (kill_events : List Event) : List (List Event) :=
  ((List.range kill_events.length).foldl (teamfightsStep kill_events) ([], ∅)).1

/-- The fight record built for one emitted cluster
(riot_analyzer.py:107-140): start time from the cluster's first kill,
one counter incremented per kill according to the victim's id range, and
the tracked player's involvement set rendered as a sorted
comma-separated string (`'None'` when empty).  `fightKillStep` is the
body of the per-kill loop (riot_analyzer.py:118-135). -/
def fightKillStep (player_participant_id : Nat) (acc : Nat × Nat × List String)
    (kill : Event) : Nat × Nat × List String :=
  let killer_id := kill.killerId.getD 0
  let victim_id := kill.victimId.getD 0
  let counters :=
    if 1 ≤ victim_id ∧ victim_id ≤ 5 then (acc.1, acc.2.1 + 1) else (acc.1 + 1, acc.2.1)
  let inv := acc.2.2
  let inv := if killer_id = player_participant_id then addIfAbsent "Kill" inv else inv
  let inv := if victim_id = player_participant_id then addIfAbsent "Death" inv else inv
  let inv :=
    if player_participant_id ∈ kill.assistingParticipantIds.getD [] then
      addIfAbsent "Assist" inv
    else inv
  (counters.1, counters.2, inv)

def _fight_summary (player_participant_id : Nat) (current_fight_kills : List Event) :
    FightSummary :=
  let start_kill := current_fight_kills.headI
  let folded := current_fight_kills.foldl (fightKillStep player_participant_id) (0, 0, [])
  { start_time_minutes := round2 ((start_kill.timestamp : ℚ) / 60000)
  , kills := some []
  , blue_team_kills := folded.1
  , red_team_kills := folded.2.1
  , player_involvement :=
      if folded.2.2.isEmpty then "None"
      else String.intercalate ", " (pySorted folded.2.2) }

/-- The team-attribution test of the per-kill loop
(riot_analyzer.py:124): the victim id is in the blue range 1-5, so the
kill is credited to `red_team_kills`. -/
def victimIsBlue (kill : Event) : Bool :=
  1 ≤ kill.victimId.getD 0 ∧ kill.victimId.getD 0 ≤ 5

/-- The `CHAMPION_KILL` events of a timeline, in timeline order
(riot_analyzer.py:88). -/
def killEvents (timeline_data : TimelineData) : List Event :=
  (allEvents timeline_data).filter (fun e => e.type = "CHAMPION_KILL")

/-- Embedding of `_analyze_teamfights` (riot_analyzer.py:79-142): the
fight records of the emitted clusters, in emission order. -/
def _analyze_teamfights (timeline_data : TimelineData) (player_participant_id : Nat) :
    List FightSummary :=
  (teamfightClusters (killEvents timeline_data)).map
    (_fight_summary player_participant_id)

/-- The involvement-string merge of the consolidation pass
(riot_analyzer.py:164-174): split both strings on `', '`, drop `'None'`,
take the set union, and re-render sorted (or `'None'` when empty).
Python's `set(...)` is modelled by duplicate-dropping accumulation. -/
def mergeInvolvement (a b : String) : String :=
  let p1_involvement := (a.splitOn ", ").filter (fun s => s ≠ "None")
  let p2_involvement := (b.splitOn ", ").filter (fun s => s ≠ "None")
  let combined_involvement :=
    (p1_involvement ++ p2_involvement).foldl (fun acc s => addIfAbsent s acc) []
  if combined_involvement.isEmpty then "None"
  else String.intercalate ", " (pySorted combined_involvement)

/-- Merging one more fight into the current engagement
(riot_analyzer.py:159-174): kill counts add, involvement strings merge;
`start_time_minutes` and `kills` stay those of the current engagement. -/
def mergeEngagement (current_engagement next_fight : FightSummary) : FightSummary :=
  { current_engagement with
    blue_team_kills := current_engagement.blue_team_kills + next_fight.blue_team_kills
  , red_team_kills := current_engagement.red_team_kills + next_fight.red_team_kills
  , player_involvement :=
      mergeInvolvement current_engagement.player_involvement next_fight.player_involvement }

/-- The loop of `_consolidate_fights_into_engagements`
(riot_analyzer.py:155-183), carrying the current engagement: a fight
whose start is within `ENGAGEMENT_WINDOW_MINUTES = 0.75` of the current
engagement's start is merged, otherwise the current engagement is
emitted and the fight (with `kills := None`) starts a new one. -/
def consolidateLoop (current_engagement : FightSummary) :
    List FightSummary → List FightSummary
  | [] => [current_engagement]
  | next_fight :: rest =>
    if next_fight.start_time_minutes - current_engagement.start_time_minutes ≤ 3 / 4 then
      consolidateLoop (mergeEngagement current_engagement next_fight) rest
    else
      current_engagement :: consolidateLoop { next_fight with kills := none } rest

/-- Embedding of `_consolidate_fights_into_engagements`
(riot_analyzer.py:144-185). -/
def _consolidate_fights_into_engagements (fights : List FightSummary) : List FightSummary :=
  match fights with
  | [] => []
  | first :: rest => consolidateLoop { first with kills := none } rest

/-- An objective-timeline entry (riot_analyzer.py:202-206). -/
structure Objective where
  time_minutes : ℚ
  team : String
  type : String
deriving DecidableEq, Repr

/-- The record built for one `ELITE_MONSTER_KILL` event
(riot_analyzer.py:196-206): team from `killerTeamId == 100`, and the
`monsterSubType` (defaulting to `'DRAGON'`) substituted for the type
only when `monsterType` is `'DRAGON'`. -/
def mkObjective (obj : Event) : Objective :=
  let team := if obj.killerTeamId = some 100 then "Blue" else "Red"
  let monster_type := obj.monsterType.getD "UNKNOWN"
  let monster_type :=
    if monster_type = "DRAGON" then obj.monsterSubType.getD "DRAGON" else monster_type
  { time_minutes := round2 ((obj.timestamp : ℚ) / 60000)
  , team := team
  , type := monster_type }

/-- Embedding of `_analyze_objectives` (riot_analyzer.py:187-208). -/
def _analyze_objectives (timeline_data : TimelineData) : List Objective :=
  ((allEvents timeline_data).filter
    (fun e => e.type = "ELITE_MONSTER_KILL")).map mkObjective

/-- One power-spike entry (riot_analyzer.py:228-232, 250-254). -/
structure Spike where
  time_minutes : ℚ
  type : String
  detail : String
deriving DecidableEq, Repr

/-- The per-participant power-spike table, a dict keyed by participant
id modelled as an association list.  The source initialises keys 1-10
(riot_analyzer.py:218). -/
abbrev SpikeTable : Type := List (Nat × List Spike)

/-- The hardcoded legendary-item allow-list (riot_analyzer.py:216). -/
def LEGENDARY_ITEM_IDS : List Int :=
  [3074, 3153, 6675, 3006, 6672, 3031, 3089, 4633, 6653, 6655]

/-- Dict lookup on the spike table (first entry with the given key). -/
def tableLookup (t : SpikeTable) (k : Nat) : Option (List Spike) :=
  match t with
  | [] => none
  | kv :: rest => if kv.1 = k then some kv.2 else tableLookup rest k

/-- Appending a spike to one key's list, i.e. the Python
`power_spikes[player_id].append(spike)`.  On a key absent from the table
the source would raise `KeyError`; in well-formed data participant ids
are 1-10 and the key exists, so this models the absent case as a
no-op. -/
def tableAppend (t : SpikeTable) (player_id : Nat) (spike : Spike) : SpikeTable :=
  t.map (fun kv => if kv.1 = player_id then (kv.1, kv.2 ++ [spike]) else kv)

/-- The initial table `{i: [] for i in range(1, 11)}`
(riot_analyzer.py:218). -/
def initSpikeTable : SpikeTable := (List.range' 1 10).map (fun i => (i, []))

/-- No two `'Killing Spree'` entries of the list share a
`time_minutes` value. -/
def noDupKS (l : List Spike) : Prop :=
  List.Pairwise
    (fun s1 s2 => ¬(s1.type = "Killing Spree" ∧ s2.type = "Killing Spree" ∧
      s1.time_minutes = s2.time_minutes)) l

/-- Every per-participant list of the table satisfies `noDupKS`. -/
def spikeInv (t : SpikeTable) : Prop :=
  ∀ k l, tableLookup t k = some l → noDupKS l

/-- One iteration of the killing-spree loop (riot_analyzer.py:237-257)
at the `i`-th kill event: count the later kills by the same killer
within a 30-second window anchored at this kill (the inner loop has no
`break`), and when the streak reaches 2 register a `'Killing Spree'`
spike unless one with the same `time_minutes` is already recorded for
that killer. -/
def spreeStep (kill_events : List Event) (power_spikes : SpikeTable) (ia : Nat × Event) :
    SpikeTable :=
  let i := ia.1
  let start_kill := ia.2
  let killer_id := start_kill.killerId.getD 0
  if killer_id = 0 then power_spikes
  else
    let window_end_time := start_kill.timestamp + 30000
    let streak_count :=
      1 + (kill_events.drop (i + 1)).countP
        (fun next_kill =>
          next_kill.killerId = some killer_id ∧ next_kill.timestamp ≤ window_end_time)
    if 2 ≤ streak_count then
      let spike : Spike :=
        { time_minutes := round2 ((start_kill.timestamp : ℚ) / 60000)
        , type := "Killing Spree"
        , detail := toString streak_count ++ " kills" }
      if ((tableLookup power_spikes killer_id).getD []).any
          (fun s => s.time_minutes = spike.time_minutes ∧ s.type = "Killing Spree") then
        power_spikes
      else tableAppend power_spikes killer_id spike
    else power_spikes

/-- Embedding of `_track_power_spikes` (riot_analyzer.py:210-259): first
the legendary-item purchases, then the killing-spree scan. -/
def _track_power_spikes (timeline_data : TimelineData) : SpikeTable :=
  let all_events := allEvents timeline_data
  -- `e.get('itemId') in LEGENDARY_ITEM_IDS`: an absent id is not in the set
  let item_events := all_events.filter
    (fun e => e.type = "ITEM_PURCHASED" ∧
      e.itemId.any (fun id => id ∈ LEGENDARY_ITEM_IDS) = true)
  let power_spikes := item_events.foldl
    (fun t event =>
      tableAppend t (event.participantId.getD 0)
        { time_minutes := round2 ((event.timestamp : ℚ) / 60000)
        , type := "Item Completion"
        , detail := "Item ID " ++ toString (event.itemId.getD 0) })
    initSpikeTable
  let kill_events := all_events.filter (fun e => e.type = "CHAMPION_KILL")
  kill_events.enum.foldl (spreeStep kill_events) power_spikes

/-- One death-analysis entry (riot_analyzer.py:282-287). -/
structure DeathAnalysis where
  time_minutes : ℚ
  killed_by : String
  context : List String
  outcome : List String
deriving DecidableEq, Repr

/-- Python `max(l, key=lambda p: p['totalGold'])`: the first element of
maximal gold (`max` only replaces its candidate on strictly greater
keys).  The source only calls this on non-empty lists; `[]` returns the
default frame. -/
def maxByGold (l : List ParticipantFrame) : ParticipantFrame :=
  match l with
  | [] => default
  | x :: xs => xs.foldl (fun best p => if best.totalGold < p.totalGold then p else best) x

/-- Python `min(l, key=lambda p: p['totalGold'])`: the first element of
minimal gold. -/
def minByGold (l : List ParticipantFrame) : ParticipantFrame :=
  match l with
  | [] => default
  | x :: xs => xs.foldl (fun best p => if p.totalGold < best.totalGold then p else best) x

/-- The placeholder fill at the end of each death analysis
(riot_analyzer.py:369-370): an empty note list receives the literal
placeholder. -/
def fillDefault (l : List String) (s : String) : List String :=
  if l.isEmpty then l ++ [s] else l

/-- The death-window objective predicate of the outcome scan
(riot_analyzer.py:357-359): an `ELITE_MONSTER_KILL` strictly after the
death and at most 60 s later. -/
def outcomeEventP (death_time_ms : Int) (event : Event) : Bool :=
  death_time_ms < event.timestamp ∧ event.timestamp ≤ death_time_ms + 60000 ∧
    event.type = "ELITE_MONSTER_KILL"

/-- The analysis of a single death of the tracked player, the body of
the loop of `_generate_death_analysis` (riot_analyzer.py:271-372).  The
proximity test models `sqrt(dx^2 + dy^2) < 2000` as
`dx^2 + dy^2 < 2000^2`, its exact integer equivalent. -/
def analyzeDeath (timeline_data : TimelineData) (match_data : MatchData)
    (player_participant_id : Nat) (power_spikes : SpikeTable) (death : Event) :
    DeathAnalysis :=
  let all_events := allEvents timeline_data
  let frames := timeline_data.frames
  let death_time_ms := death.timestamp
  let death_time_minutes := round2 ((death_time_ms : ℚ) / 60000)
  let death_frame : Option (List (String × ParticipantFrame)) :=
    (frames.find? (fun frame => death_time_ms ≤ frame.timestamp)).map
      (fun frame => frame.participantFrames)
  let killer_id := death.killerId.getD 0
  -- killer block (riot_analyzer.py:290-314)
  let killed_by :=
    if 0 < killer_id then
      match match_data.infoParticipants.find? (fun p => p.participantId = killer_id) with
      | some p => p.championName
      | none => "Unknown"
    else "Unknown"
  let context : List String := []
  let context :=
    if 0 < killer_id then
      let context :=
        if (tableLookup power_spikes killer_id).isSome then
          match ((tableLookup power_spikes killer_id).getD []).find?
              (fun spike => spike.time_minutes < death_time_minutes ∧
                death_time_minutes - 3 / 2 < spike.time_minutes) with
          | some spike => context ++ ["Killer had recent '" ++ spike.type ++ "' spike"]
          | none => context
        else context
      match death_frame with
      | some df =>
        if df.isEmpty then context
        else
          let killer_gold := ((df.lookup (toString killer_id)).map
            (fun f => f.totalGold)).getD 0
          let enemy_team_ids :=
            if player_participant_id ≤ 5 then List.range' 6 5 else List.range' 1 5
          let is_strongest := enemy_team_ids.all (fun team_id =>
            if team_id ≠ killer_id then
              ((df.lookup (toString team_id)).map (fun f => f.totalGold)).getD 0 ≤ killer_gold
            else true)
          if is_strongest then
            context ++ ["Killer was their team's strongest player (by gold)"]
          else context
      | none => context
    else context
  -- fight-context block (riot_analyzer.py:317-354)
  let context :=
    match death_frame with
    | some df =>
      if df.isEmpty then context
      else
        let player_pos := (df.lookup (toString player_participant_id)).bind
          (fun f => f.position)
        let context :=
          match player_pos with
          | some ppos =>
            let fight_participants_data := df.filterMap (fun kv =>
              match kv.2.position with
              | some p_pos =>
                if (ppos.x - p_pos.x) ^ 2 + (ppos.y - p_pos.y) ^ 2 < 2000 ^ 2 then
                  some kv.2
                else none
              | none => none)
            let allies_nearby := fight_participants_data.countP (fun p =>
              ((1 ≤ p.participantId ∧ p.participantId ≤ 5) ↔
                (1 ≤ player_participant_id ∧ player_participant_id ≤ 5)))
            let enemies_nearby := fight_participants_data.length - allies_nearby
            let context :=
              if allies_nearby ≠ enemies_nearby then
                context ++ ["Fought in a " ++ toString allies_nearby ++ "v" ++
                  toString enemies_nearby ++ " situation"]
              else context
            if 1 < fight_participants_data.length then
              let strongest_in_fight := maxByGold fight_participants_data
              let weakest_in_fight := minByGold fight_participants_data
              let gold_diff := strongest_in_fight.totalGold - weakest_in_fight.totalGold
              let context :=
                if 500 < gold_diff then
                  context ++ ["Fight gold disparity was " ++ toString gold_diff ++ "g"]
                else context
              let context :=
                if killer_id = strongest_in_fight.participantId then
                  context ++ ["Killed by strongest in fight"]
                else context
              if player_participant_id = weakest_in_fight.participantId then
                context ++ ["Died as weakest in fight"]
              else context
            else context
          | none => context
        let strongest_in_game := maxByGold (df.map (fun kv => kv.2))
        if killer_id = strongest_in_game.participantId then
          context ++ ["Killed by strongest player in the game"]
        else context
    | none => context
  -- outcome block (riot_analyzer.py:356-367): the loop breaks at the
  -- first elite-monster kill in the minute after the death
  let outcome : List String :=
    match all_events.find? (outcomeEventP death_time_ms) with
    | some event =>
      let killer_team_id :=
        if 1 ≤ event.killerId.getD 0 ∧ event.killerId.getD 0 ≤ 5 then 100 else 200
      let player_team_id :=
        if 1 ≤ player_participant_id ∧ player_participant_id ≤ 5 then 100 else 200
      let obj_type := event.monsterType.getD "Objective"
      if killer_team_id ≠ player_team_id then ["Enemy took " ++ obj_type]
      else ["Allies took " ++ obj_type ++ " (trade)"]
    | none => []
  { time_minutes := death_time_minutes
  , killed_by := killed_by
  , context := fillDefault context "No special circumstances noted."
  , outcome := fillDefault outcome "No immediate objective change." }

/-- The tracked player's deaths: `CHAMPION_KILL` events whose
`victimId` is the player (riot_analyzer.py:269). -/
def playerDeaths (timeline_data : TimelineData) (player_participant_id : Nat) : List Event :=
  (allEvents timeline_data).filter
    (fun e => e.type = "CHAMPION_KILL" ∧ e.victimId = some player_participant_id)

/-- Embedding of `_generate_death_analysis` (riot_analyzer.py:261-374):
one entry per death of the tracked player, in timeline order. -/
def _generate_death_analysis (timeline_data : TimelineData) (match_data : MatchData)
    (player_participant_id : Nat) (power_spikes : SpikeTable) : List DeathAnalysis :=
  (playerDeaths timeline_data player_participant_id).map
    (analyzeDeath timeline_data match_data player_participant_id power_spikes)

/-- The `kill_collaboration` block of the duo report
(riot_analyzer.py:379-384). -/
structure KillCollaboration where
  p1_on_p2_kills : Nat
  p2_on_p1_kills : Nat
  total_p1_kills : Int
  total_p2_kills : Int
deriving DecidableEq, Repr

/-- A joint-objective entry of the duo report
(riot_analyzer.py:420-423). -/
structure DuoObjective where
  time_minutes : ℚ
  type : String
deriving DecidableEq, Repr

/-- The duo report built by `_analyze_duo_dynamics`. -/
structure DuoReport where
  kill_collaboration : KillCollaboration
  joint_objectives : List DuoObjective
deriving DecidableEq, Repr

/-- Embedding of `_analyze_duo_dynamics` (riot_analyzer.py:376-425).
The two assisted-kill counters are accumulated over one pass of the
timeline's kill events; the joint-objective list collects elite-monster
kills of the pair's team where both ids appear among killer and
assisters (`[obj.get('killerId')] + assisters` is a list whose head may
be Python `None`, hence the `Option`-valued membership tests). -/
def duoKillStep (p1_id p2_id : Nat) (acc : Nat × Nat) (kill : Event) : Nat × Nat :=
  let killer_id := kill.killerId
  let assisting_ids := kill.assistingParticipantIds.getD []
  -- Player 1 killed, Player 2 assisted (riot_analyzer.py:402-403)
  let acc := if killer_id = some p1_id ∧ p2_id ∈ assisting_ids then (acc.1, acc.2 + 1)
    else acc
  -- Player 2 killed, Player 1 assisted (riot_analyzer.py:406-407)
  if killer_id = some p2_id ∧ p1_id ∈ assisting_ids then (acc.1 + 1, acc.2) else acc

/-- The two assisted-kill counters and the joint-objective scan of
`_analyze_duo_dynamics`; see `duoKillStep` for the per-kill body. -/
def _analyze_duo_dynamics (match_data : MatchData) (timeline_data : TimelineData)
    (player1_data player2_data : Participant) : DuoReport :=
  let _ := match_data
  let p1_id := player1_data.participantId
  let p2_id := player2_data.participantId
  let all_events := allEvents timeline_data
  let kill_events := all_events.filter (fun e => e.type = "CHAMPION_KILL")
  let counters := kill_events.foldl (duoKillStep p1_id p2_id) (0, 0)
  let objective_kills := all_events.filter (fun e => e.type = "ELITE_MONSTER_KILL")
  let player_team_id := player1_data.teamId
  let joint_objectives := objective_kills.foldl
    (fun acc obj =>
      if obj.killerTeamId = player_team_id then
        let involved_ids : List (Option Nat) :=
          obj.killerId :: (obj.assistingParticipantIds.getD []).map some
        if some p1_id ∈ involved_ids ∧ some p2_id ∈ involved_ids then
          let monster_type := obj.monsterType.getD "UNKNOWN"
          let monster_type :=
            if monster_type = "DRAGON" then obj.monsterSubType.getD "DRAGON"
            else monster_type
          acc ++ [{ time_minutes := round2 ((obj.timestamp : ℚ) / 60000)
                  , type := monster_type : DuoObjective }]
        else acc
      else acc)
    []
  { kill_collaboration :=
      { p1_on_p2_kills := counters.1
      , p2_on_p1_kills := counters.2
      , total_p1_kills := player1_data.kills
      , total_p2_kills := player2_data.kills }
  , joint_objectives := joint_objectives }

/-- The `player_summary` block of an individual report
(riot_analyzer.py:539-550). -/
structure PlayerSummary where
  championName : String
  lane : Option String
  kills : Int
  deaths : Int
  assists : Int
  win : Bool
  kda : Option ℚ
  killParticipation : Option ℚ
  totalDamageDealtToChampions : Int
  visionScore : Int
deriving DecidableEq, Repr

instance : DecidableEq (Except String LaningStats) := fun x y =>
  match x, y with
  | .error a, .error b =>
    if h : a = b then isTrue (by rw [h])
    else isFalse (by intro he; cases he; exact h rfl)
  | .ok a, .ok b =>
    if h : a = b then isTrue (by rw [h])
    else isFalse (by intro he; cases he; exact h rfl)
  | .error _, .ok _ => isFalse (by intro h; cases h)
  | .ok _, .error _ => isFalse (by intro h; cases h)

/-- One individual report of `analyze_match`.  Keys that the source adds
conditionally (`laning_phase` only when a lane opponent resolves; the
timeline-derived sections only when the timeline fetch succeeded) are
`Option`-valued. -/
structure Report where
  player_summary : PlayerSummary
  laning_phase : Option (Except String LaningStats)
  team_fights : Option (List FightSummary)
  objectives : Option (List Objective)
  death_analysis : Option (List DeathAnalysis)
deriving DecidableEq, Repr

/-- Python dict assignment `d[k] = v` on a dict modelled as an
association list in insertion order: replace in place when the key
exists, append otherwise. -/
def upsert {β : Type} (l : List (String × β)) (k : String) (v : β) : List (String × β) :=
  if l.any (fun kv => kv.1 = k) then
    l.map (fun kv => if kv.1 = k then (k, v) else kv)
  else l ++ [(k, v)]

/-- The pure core of `analyze_match` (riot_analyzer.py:488-574) after
the two payload fetches: resolve every requested PUUID (an unresolvable
one is skipped with a warning), then build one individual report per
resolved player, keyed by champion name.  A `none` timeline models the
degraded mode in which the fetch of the timeline failed and every
timeline-dependent section is skipped.  The printing at the end of the
source function is I/O and has no effect on the returned value.
`resolvePlayersStep` is one iteration of the resolution loop
(riot_analyzer.py:526-531): an unresolvable PUUID is skipped with a
warning, a resolved one stored under its PUUID key. -/
def resolvePlayersStep (match_data : MatchData) (acc : List (String × Participant))
    (puuid : String) : List (String × Participant) :=
  match _get_player_participant_data match_data puuid with
  | none => acc
  | some player_data => upsert acc puuid player_data

/-- The `player_summary` block built for one resolved player
(riot_analyzer.py:539-550). -/
def buildPlayerSummary (player_data : Participant) : PlayerSummary :=
  { championName := player_data.championName
  , lane := pyOr player_data.teamPosition player_data.lane
  , kills := player_data.kills
  , deaths := player_data.deaths
  , assists := player_data.assists
  , win := player_data.win
  , kda := player_data.kda
  , killParticipation := player_data.killParticipation
  , totalDamageDealtToChampions := player_data.totalDamageDealtToChampions
  , visionScore := player_data.visionScore }

/-- The individual report built for one resolved player
(riot_analyzer.py:534-572). -/
def buildReport (match_data : MatchData) (timeline_data : Option TimelineData)
    (power_spikes : SpikeTable) (player_data : Participant) : Report :=
  let player_summary := buildPlayerSummary player_data
  match timeline_data with
  | some tl =>
    { player_summary := player_summary
    , laning_phase :=
        match _find_lane_opponent match_data.infoParticipants player_data with
        | some opponent_data =>
          some (_analyze_laning_phase tl player_data.participantId
            opponent_data.participantId)
        | none => none
    , team_fights := some (_consolidate_fights_into_engagements
        (_analyze_teamfights tl player_data.participantId))
    , objectives := some (_analyze_objectives tl)
    , death_analysis := some (_generate_death_analysis tl match_data
        player_data.participantId power_spikes) }
  | none =>
    { player_summary := player_summary
    , laning_phase := none
    , team_fights := none
    , objectives := none
    , death_analysis := none }

/-- One iteration of the report loop: store the player's report under
the champion-name key (riot_analyzer.py:574). -/
def reportStep (match_data : MatchData) (timeline_data : Option TimelineData)
    (power_spikes : SpikeTable) (individual_reports : List (String × Report))
    (kv : String × Participant) : List (String × Report) :=
  upsert individual_reports kv.2.championName
    (buildReport match_data timeline_data power_spikes kv.2)

def analyze_match_reports (match_data : MatchData) (timeline_data : Option TimelineData)
    (puuids_to_analyze : List String) : List (String × Report) :=
  let power_spikes := match timeline_data with
    | some tl => _track_power_spikes tl
    | none => []
  let all_player_data : List (String × Participant) :=
    puuids_to_analyze.foldl (resolvePlayersStep match_data) []
  all_player_data.foldl (reportStep match_data timeline_data power_spikes) []

/-! Concrete fixtures used by the counterexamples and witnesses below. -/

/-- A `CHAMPION_KILL` event fixture. -/
def mkKill (ts : Int) (killer victim : Nat) (assists : List Nat) : Event :=
  { type := "CHAMPION_KILL", timestamp := ts, killerId := some killer
  , victimId := some victim, assistingParticipantIds := some assists
  , killerTeamId := none, monsterType := none, monsterSubType := none
  , itemId := none, participantId := none }

/-- An `ELITE_MONSTER_KILL` event fixture. -/
def mkElite (ts : Int) (team : Option Nat) (mt mst : Option String) : Event :=
  { type := "ELITE_MONSTER_KILL", timestamp := ts, killerId := none
  , victimId := none, assistingParticipantIds := none
  , killerTeamId := team, monsterType := mt, monsterSubType := mst
  , itemId := none, participantId := none }

/-- A frame fixture holding only events. -/
def mkFrame (ts : Int) (evs : List Event) : Frame :=
  { timestamp := ts, participantFrames := [], events := evs }

/-- A participant fixture. -/
def mkParticipant (puuid : String) (pid : Nat) (champ : String) (kills : Int) :
    Participant :=
  { puuid := some puuid, participantId := pid, championName := champ
  , teamId := some 100, teamPosition := some "TOP", individualPosition := none
  , lane := none, kills := kills, deaths := 0, assists := 0, win := true
  , kda := none, killParticipation := none, totalDamageDealtToChampions := 0
  , visionScore := 0 }

/-- A single 3-kill cluster within 15 seconds: killer ids 1, 2, 3 and
victim ids 7, 8, 7 (the scenario of the C1 spec sentence). -/
def tlScenarioC1 : TimelineData :=
  { frames := [mkFrame 120000
      [mkKill 60000 1 7 [], mkKill 65000 2 8 [], mkKill 70000 3 7 []]] }

/-- A timeline with one non-dragon elite-monster kill that nevertheless
carries a `monsterSubType`. -/
def tlScenarioC7 : TimelineData :=
  { frames := [mkFrame 120000
      [mkElite 90000 (some 200) (some "BARON_NASHOR") (some "SUBTYPE_X")]] }

/-- A timeline whose only event is a kill of participant 1 with no
elite-monster kill afterwards. -/
def tlScenarioC8 : TimelineData :=
  { frames := [mkFrame 120000 [mkKill 60000 6 1 []]] }

/-- A timeline with no events at all. -/
def tlEmpty : TimelineData := { frames := [] }

/-- A timeline with fewer than 11 frames, so the 10-minute snapshot is
missing. -/
def tlNoFrames : TimelineData := { frames := [] }

/-- A match payload with a single resolvable participant. -/
def matchOneAhri : MatchData :=
  { metadataParticipants := ["puuid-a"]
  , infoParticipants := [mkParticipant "puuid-a" 1 "Ahri" 0] }

/-- A match payload with two resolvable participants of distinct
champions. -/
def matchTwoDistinct : MatchData :=
  { metadataParticipants := ["puuid-a", "puuid-b"]
  , infoParticipants := [mkParticipant "puuid-a" 1 "Ahri" 0
                        , mkParticipant "puuid-b" 2 "Garen" 0] }

/-- Duo fixture: player 2 registers one timeline kill assisted by
player 1, but the match payload credits player 2 with zero kills. -/
def tlScenarioC6 : TimelineData :=
  { frames := [mkFrame 120000 [mkKill 60000 2 7 [1]]] }

/-- Duo fixture participants: ids 1 and 2, with match-payload kill
totals 5 and 0. -/
def duoP1 : Participant := mkParticipant "puuid-a" 1 "Ahri" 5

/-- Second duo fixture participant; see `duoP1`. -/
def duoP2 : Participant := mkParticipant "puuid-b" 2 "Garen" 0

/-- Duo fixture with payload totals consistent with the timeline:
player 2 has one timeline kill and a match total of 1. -/
def duoP2consistent : Participant := mkParticipant "puuid-b" 2 "Garen" 1

/-! ### Theorems -/

theorem foldl_fightKillStep (pid : Nat) :
    ∀ (c : List Event) (b r : Nat) (inv : List String),
      (c.foldl (fightKillStep pid) (b, r, inv)).1 =
        b + c.countP (fun k => !victimIsBlue k) ∧
      (c.foldl (fightKillStep pid) (b, r, inv)).2.1 = r + c.countP victimIsBlue := by
  intro c
  induction c with
  | nil => intro b r inv; simp
  | cons k c ih =>
    intro b r inv
    by_cases hv : (1 ≤ k.victimId.getD 0 ∧ k.victimId.getD 0 ≤ 5)
    · have hb : victimIsBlue k = true := by simp [victimIsBlue, hv.1, hv.2]
      have hstep : fightKillStep pid (b, r, inv) k =
          (b, r + 1, (fightKillStep pid (b, r, inv) k).2.2) := by
        simp only [fightKillStep, if_pos hv]
      rw [List.foldl_cons, hstep]
      obtain ⟨h1, h2⟩ := ih b (r + 1) ((fightKillStep pid (b, r, inv) k).2.2)
      constructor
      · rw [h1, List.countP_cons]
        simp [hb]
      · rw [h2, List.countP_cons]
        simp [hb]
        omega
    · have hb : victimIsBlue k = false := by
        simp only [victimIsBlue]
        simpa using hv
      have hstep : fightKillStep pid (b, r, inv) k =
          (b + 1, r, (fightKillStep pid (b, r, inv) k).2.2) := by
        simp only [fightKillStep, if_neg hv]
      rw [List.foldl_cons, hstep]
      obtain ⟨h1, h2⟩ := ih (b + 1) r ((fightKillStep pid (b, r, inv) k).2.2)
      constructor
      · rw [h1, List.countP_cons]
        simp [hb]
        omega
      · rw [h2, List.countP_cons]
        simp [hb]

theorem fight_summary_red (pid : Nat) (c : List Event) :
    (_fight_summary pid c).red_team_kills = c.countP victimIsBlue := by
  simpa using (foldl_fightKillStep pid c 0 0 []).2

theorem fight_summary_blue (pid : Nat) (c : List Event) :
    (_fight_summary pid c).blue_team_kills = c.countP (fun k => !victimIsBlue k) := by
  simpa using (foldl_fightKillStep pid c 0 0 []).1

/-- C2: in every fight record emitted by the fight-clustering pass, each
constituent kill whose victim id is between 1 and 5 increments
`red_team_kills` (count of kills with `victimIsBlue`) and every other
constituent kill increments `blue_team_kills`; consequently
`blue_team_kills + red_team_kills` equals the number of kills in the
cluster. -/
theorem c2_team_attribution (tl : TimelineData) (pid : Nat) (c : List Event)
    (hc : c ∈ teamfightClusters (killEvents tl)) :
    (_fight_summary pid c).red_team_kills = c.countP victimIsBlue ∧
    (_fight_summary pid c).blue_team_kills = c.countP (fun k => !victimIsBlue k) ∧
    (_fight_summary pid c).blue_team_kills + (_fight_summary pid c).red_team_kills =
      c.length ∧
    _fight_summary pid c ∈ _analyze_teamfights tl pid := by
  refine ⟨fight_summary_red pid c, fight_summary_blue pid c, ?_, ?_⟩
  · rw [fight_summary_red, fight_summary_blue, Nat.add_comm]
    rw [show (fun k => !victimIsBlue k) = (fun a => decide ¬(victimIsBlue a = true))
      from by funext a; cases h : victimIsBlue a <;> simp [h]]
    exact (List.length_eq_countP_add_countP victimIsBlue c).symm
  · exact List.mem_map_of_mem (_fight_summary pid) hc

/-- Witness for C2 at the concrete 3-kill scenario timeline. -/
theorem c2_team_attribution_witness :
    ([mkKill 60000 1 7 [], mkKill 65000 2 8 [], mkKill 70000 3 7 []] ∈
      teamfightClusters (killEvents tlScenarioC1)) ∧
    (_fight_summary 1 [mkKill 60000 1 7 [], mkKill 65000 2 8 [], mkKill 70000 3 7 []]
      ).blue_team_kills +
     (_fight_summary 1 [mkKill 60000 1 7 [], mkKill 65000 2 8 [], mkKill 70000 3 7 []]
      ).red_team_kills = 3 :=
  ⟨by decide,
   (c2_team_attribution tlScenarioC1 1 _ (by decide)).2.2.1⟩

theorem foldl_teamfightsStep_skip (kills : List Event) :
    ∀ (idxs : List Nat) (acc : List (List Event) × Finset Nat),
      (∀ i ∈ idxs, i ∈ acc.2) →
      List.foldl (teamfightsStep kills) acc idxs = acc := by
  intro idxs
  induction idxs with
  | nil => intro acc _; rfl
  | cons i idxs ih =>
    intro acc h
    rw [List.foldl_cons]
    have hstep : teamfightsStep kills acc i = acc := by
      rw [teamfightsStep, if_pos (h i (List.mem_cons_self i idxs))]
    rw [hstep]
    exact ih acc (fun j hj => h j (List.mem_cons_of_mem i hj))

theorem indexOf_getElem_of_nodup (l : List Event) (hnd : l.Nodup) (i : Nat)
    (hi : i < l.length) : l.indexOf l[i] = i := by
  have hmem : l[i] ∈ l := List.getElem_mem hi
  have hget : l.get ⟨l.indexOf l[i], List.indexOf_lt_length.mpr hmem⟩ = l[i] :=
    List.indexOf_get _
  have := (List.Nodup.getElem_inj_iff hnd).mp hget
  exact this

/-- Clustering helper: when a kill-event list has at least three events,
pairwise distinct, all within 20 s of the first, the pass emits exactly
one cluster containing every kill. -/
theorem teamfightClusters_single_window (l : List Event) (hlen : 3 ≤ l.length)
    (hnd : l.Nodup)
    (hw : ∀ k ∈ l, k.timestamp ≤ l.headI.timestamp + 20 * 1000) :
    teamfightClusters l = [l] := by
  obtain ⟨a, t, rfl⟩ : ∃ a t, l = a :: t := by
    cases l with
    | nil => simp at hlen
    | cons a t => exact ⟨a, t, rfl⟩
  rw [teamfightClusters]
  have hlen1 : (a :: t).length = t.length + 1 := rfl
  rw [hlen1, List.range_succ_eq_map, List.foldl_cons]
  have hca : clusterAt (a :: t) 0 = a :: t := by
    rw [clusterAt]
    simp only [List.getElem?_cons_zero, List.drop_succ_cons, List.drop_zero]
    have ht : t.takeWhile (fun k => decide (k.timestamp ≤ a.timestamp + 20 * 1000)) = t :=
      List.takeWhile_eq_self_iff.mpr (by
        intro x hx
        simp only [decide_eq_true_eq]
        exact hw x (List.mem_cons_of_mem a hx))
    rw [ht]
  have hstep0 : teamfightsStep (a :: t) ([], ∅) 0 =
      ([a :: t], ∅ ∪ ((a :: t).map (fun kill => (a :: t).indexOf kill)).toFinset) := by
    rw [teamfightsStep, if_neg (by simp), hca, if_pos hlen]
    rfl
  rw [hstep0]
  rw [foldl_teamfightsStep_skip]
  intro i hi
  simp only [List.mem_map, List.mem_range] at hi
  obtain ⟨j, hj, rfl⟩ := hi
  have hjlt : j + 1 < (a :: t).length := by simpa using Nat.succ_lt_succ hj
  have : (a :: t).indexOf (a :: t)[j + 1] = j + 1 :=
    indexOf_getElem_of_nodup (a :: t) hnd (j + 1) hjlt
  simp only [Finset.mem_union, List.mem_toFinset, List.mem_map]
  exact Or.inr ⟨(a :: t)[j + 1], List.getElem_mem hjlt, this⟩

/-- C1 counterexample: on the 3-kill scenario of the claim (killers 1,
2, 3; victims 7, 8, 7; kills 5 s apart), the single emitted fight record
has `blue_team_kills = 3` and `red_team_kills = 0`, not
`blue_team_kills = 0` and `red_team_kills = 3` as claimed. -/
theorem c1_counterexample :
    (_analyze_teamfights tlScenarioC1 1).map
      (fun f => (f.blue_team_kills, f.red_team_kills)) = [(3, 0)] ∧
    ¬ (∀ f ∈ _analyze_teamfights tlScenarioC1 1,
        f.blue_team_kills = 0 ∧ f.red_team_kills = 3) := by
  constructor
  · decide
  · decide

/-- C1 amended: for a timeline whose CHAMPION_KILL events form a single
3-kill cluster within 15 seconds with killer ids in 1-5 and victim ids
at least 6, the emitted fight record has `blue_team_kills = 3` and
`red_team_kills = 0` (the code credits a kill over a victim of id 6-10
to `blue_team_kills`). -/
theorem c1_scenario_amended (tl : TimelineData) (pid : Nat) (k1 k2 k3 : Event)
    (hk : killEvents tl = [k1, k2, k3])
    (h12 : k1.timestamp ≤ k2.timestamp) (h23 : k2.timestamp ≤ k3.timestamp)
    (h15 : k3.timestamp ≤ k1.timestamp + 15000)
    (hne12 : k1 ≠ k2) (hne13 : k1 ≠ k3) (hne23 : k2 ≠ k3)
    (hkiller : ∀ k ∈ [k1, k2, k3], 1 ≤ k.killerId.getD 0 ∧ k.killerId.getD 0 ≤ 5)
    (hvictim : ∀ k ∈ [k1, k2, k3], 6 ≤ k.victimId.getD 0) :
    (_analyze_teamfights tl pid).map
      (fun f => (f.blue_team_kills, f.red_team_kills)) = [(3, 0)] := by
  have hnd : ([k1, k2, k3] : List Event).Nodup := by
    simp [List.nodup_cons, hne12, hne13, hne23]
  have hw : ∀ k ∈ [k1, k2, k3],
      k.timestamp ≤ ([k1, k2, k3] : List Event).headI.timestamp + 20 * 1000 := by
    intro k hkm
    have hd : k = k1 ∨ k = k2 ∨ k = k3 := by simpa using hkm
    have hh : ([k1, k2, k3] : List Event).headI = k1 := rfl
    rw [hh]
    rcases hd with rfl | rfl | rfl <;> omega
  have hfalse : ∀ k ∈ [k1, k2, k3], victimIsBlue k = false := by
    intro k hkm
    have h6 := hvictim k hkm
    simp only [victimIsBlue, decide_eq_false_iff_not]
    omega
  rw [_analyze_teamfights, hk,
    teamfightClusters_single_window [k1, k2, k3] (by simp) hnd hw]
  simp only [List.map_cons, List.map_nil]
  have e1 := hfalse k1 (by simp)
  have e2 := hfalse k2 (by simp)
  have e3 := hfalse k3 (by simp)
  have hblue : (_fight_summary pid [k1, k2, k3]).blue_team_kills = 3 := by
    rw [fight_summary_blue]
    simp [List.countP_cons, e1, e2, e3]
  have hred : (_fight_summary pid [k1, k2, k3]).red_team_kills = 0 := by
    rw [fight_summary_red]
    simp [List.countP_cons, e1, e2, e3]
  rw [hblue, hred]

/-- C1 witness: the amended statement applied to the concrete scenario
timeline. -/
theorem c1_scenario_amended_witness :
    killEvents tlScenarioC1 =
      [mkKill 60000 1 7 [], mkKill 65000 2 8 [], mkKill 70000 3 7 []] ∧
    (_analyze_teamfights tlScenarioC1 1).map
      (fun f => (f.blue_team_kills, f.red_team_kills)) = [(3, 0)] :=
  ⟨by decide,
   c1_scenario_amended tlScenarioC1 1 (mkKill 60000 1 7 []) (mkKill 65000 2 8 [])
     (mkKill 70000 3 7 []) (by decide) (by decide) (by decide)
     (by decide) (by decide) (by decide) (by decide) (by decide) (by decide)⟩

theorem mergeEngagement_start (c f : FightSummary) :
    (mergeEngagement c f).start_time_minutes = c.start_time_minutes := rfl

theorem mergeEngagement_kills (c f : FightSummary) :
    (mergeEngagement c f).kills = c.kills := rfl

theorem fight_eta_kills_none (f : FightSummary) (h : f.kills = none) :
    { f with kills := none } = f := by
  cases f
  simp_all

theorem consolidateLoop_head_start :
    ∀ (fs : List FightSummary) (cur : FightSummary),
      ∃ h t, consolidateLoop cur fs = h :: t ∧
        h.start_time_minutes = cur.start_time_minutes := by
  intro fs
  induction fs with
  | nil => intro cur; exact ⟨cur, [], rfl, rfl⟩
  | cons f rest ih =>
    intro cur
    by_cases hc : f.start_time_minutes - cur.start_time_minutes ≤ 3 / 4
    · obtain ⟨h, t, he, hs⟩ := ih (mergeEngagement cur f)
      refine ⟨h, t, ?_, ?_⟩
      · rw [consolidateLoop, if_pos hc]
        exact he
      · rw [hs, mergeEngagement_start]
    · exact ⟨cur, consolidateLoop { f with kills := none } rest,
        by rw [consolidateLoop, if_neg hc], rfl⟩

theorem consolidateLoop_kills_none :
    ∀ (fs : List FightSummary) (cur : FightSummary), cur.kills = none →
      ∀ e ∈ consolidateLoop cur fs, e.kills = none := by
  intro fs
  induction fs with
  | nil =>
    intro cur hcur e he
    rw [consolidateLoop] at he
    simp only [List.mem_singleton] at he
    rw [he]; exact hcur
  | cons f rest ih =>
    intro cur hcur e he
    by_cases hc : f.start_time_minutes - cur.start_time_minutes ≤ 3 / 4
    · rw [consolidateLoop, if_pos hc] at he
      exact ih (mergeEngagement cur f) (by rw [mergeEngagement_kills]; exact hcur) e he
    · rw [consolidateLoop, if_neg hc] at he
      rcases List.mem_cons.mp he with rfl | he
      · exact hcur
      · exact ih { f with kills := none } rfl e he

theorem consolidateLoop_chain :
    ∀ (fs : List FightSummary) (cur : FightSummary),
      List.Chain'
        (fun a b => ¬(b.start_time_minutes - a.start_time_minutes ≤ 3 / 4))
        (consolidateLoop cur fs) := by
  intro fs
  induction fs with
  | nil =>
    intro cur
    rw [consolidateLoop]
    exact List.chain'_singleton cur
  | cons f rest ih =>
    intro cur
    by_cases hc : f.start_time_minutes - cur.start_time_minutes ≤ 3 / 4
    · rw [consolidateLoop, if_pos hc]
      exact ih (mergeEngagement cur f)
    · rw [consolidateLoop, if_neg hc]
      obtain ⟨h, t, he, hs⟩ := consolidateLoop_head_start rest { f with kills := none }
      rw [he]
      refine List.Chain'.cons ?_ (he ▸ ih { f with kills := none })
      rw [hs]
      exact hc

theorem consolidateLoop_fixed :
    ∀ (fs : List FightSummary) (cur : FightSummary),
      (∀ e ∈ fs, e.kills = none) →
      List.Chain'
        (fun a b => ¬(b.start_time_minutes - a.start_time_minutes ≤ 3 / 4))
        (cur :: fs) →
      consolidateLoop cur fs = cur :: fs := by
  intro fs
  induction fs with
  | nil => intro cur _ _; rfl
  | cons f rest ih =>
    intro cur hk hch
    have hcf : ¬(f.start_time_minutes - cur.start_time_minutes ≤ 3 / 4) :=
      (List.chain'_cons.mp hch).1
    rw [consolidateLoop, if_neg hcf,
      fight_eta_kills_none f (hk f (List.mem_cons_self f rest))]
    rw [ih f (fun e he => hk e (List.mem_cons_of_mem f he)) (List.chain'_cons.mp hch).2]

/-- C4: engagement consolidation is idempotent, and in any output of the
consolidation pass the start times of consecutive engagements differ by
more than 0.75 minutes, so no further merge applies.  (Proved for every
input list, ordered or not.) -/
theorem c4_consolidation_idempotent (fights : List FightSummary) :
    _consolidate_fights_into_engagements (_consolidate_fights_into_engagements fights) =
      _consolidate_fights_into_engagements fights ∧
    List.Chain'
      (fun a b => 3 / 4 < b.start_time_minutes - a.start_time_minutes)
      (_consolidate_fights_into_engagements fights) := by
  cases fights with
  | nil => exact ⟨rfl, List.chain'_nil⟩
  | cons f rest =>
    have hco : _consolidate_fights_into_engagements (f :: rest) =
        consolidateLoop { f with kills := none } rest := by
      rw [_consolidate_fights_into_engagements]
    have hchain := consolidateLoop_chain rest { f with kills := none }
    have hkills := consolidateLoop_kills_none rest { f with kills := none } rfl
    obtain ⟨h, t, he, hs⟩ := consolidateLoop_head_start rest { f with kills := none }
    constructor
    · rw [hco, he, _consolidate_fights_into_engagements,
        fight_eta_kills_none h (hkills h (by rw [he]; exact List.mem_cons_self h t))]
      refine consolidateLoop_fixed t h ?_ ?_
      · intro e hemem
        exact hkills e (by rw [he]; exact List.mem_cons_of_mem h hemem)
      · rw [← he]
        exact hchain
    · rw [hco]
      exact hchain.imp (fun a b hr => lt_of_not_le hr)

/-- C5: the laning-phase analysis returns the structured error value
when frame 10 is missing or either participant's frame entry is absent
(the embedding is a total function, so no exception can escape), and on
success its two lead fields are the signed differences of the
corresponding player and opponent fields. -/
theorem c5_laning_phase (tl : TimelineData) (pid oid : Nat) :
    (tl.frames[10]? = none →
      ∃ msg, _analyze_laning_phase tl pid oid = .error msg) ∧
    (∀ fr, tl.frames[10]? = some fr →
      fr.participantFrames.lookup (toString pid) = none ∨
        fr.participantFrames.lookup (toString oid) = none →
      ∃ msg, _analyze_laning_phase tl pid oid = .error msg) ∧
    (∀ s, _analyze_laning_phase tl pid oid = .ok s →
      s.cs_lead_at_10 = s.cs_at_10 - s.opponent_cs_at_10 ∧
      s.gold_lead_at_10 = s.gold_at_10 - s.opponent_gold_at_10) := by
  refine ⟨?_, ?_, ?_⟩
  · intro h
    rw [_analyze_laning_phase, h]
    exact ⟨_, rfl⟩
  · intro fr hfr hmiss
    rw [_analyze_laning_phase, hfr]
    dsimp only
    rcases hmiss with h | h
    · rw [h]
      exact ⟨_, rfl⟩
    · rw [h]
      cases fr.participantFrames.lookup (toString pid) with
      | none => exact ⟨_, rfl⟩
      | some pf => exact ⟨_, rfl⟩
  · intro s hs
    rw [_analyze_laning_phase] at hs
    cases h10 : tl.frames[10]? with
    | none => rw [h10] at hs; cases hs
    | some fr =>
      rw [h10] at hs
      dsimp only at hs
      cases hp : fr.participantFrames.lookup (toString pid) with
      | none => rw [hp] at hs; cases hs
      | some pf =>
        cases ho : fr.participantFrames.lookup (toString oid) with
        | none => rw [hp, ho] at hs; cases hs
        | some opf =>
          rw [hp, ho] at hs
          cases hs
          exact ⟨rfl, rfl⟩

/-- C5 witness: a timeline truncated before the 10-minute mark yields
the error value. -/
theorem c5_laning_phase_witness :
    tlNoFrames.frames[10]? = none ∧
    ∃ msg, _analyze_laning_phase tlNoFrames 1 2 = .error msg :=
  ⟨by decide, (c5_laning_phase tlNoFrames 1 2).1 (by decide)⟩

/-- C7 counterexample: a non-dragon elite-monster kill carrying a
`monsterSubType` is recorded with the generic `monsterType`
(`"BARON_NASHOR"`), not the sub-type (`"SUBTYPE_X"`) — the claim's
"prefers monsterSubType whenever present" fails off the dragon case. -/
theorem c7_counterexample :
    (_analyze_objectives tlScenarioC7).map (fun o => (o.team, o.type)) =
      [("Red", "BARON_NASHOR")] ∧
    ("BARON_NASHOR" : String) ≠ "SUBTYPE_X" := by
  exact ⟨by decide, by decide⟩

/-- C7 amended: every `ELITE_MONSTER_KILL` event yields an objective
record whose team is `"Blue"` exactly when `killerTeamId = 100` (else
`"Red"`), and whose type is `monsterSubType` (defaulting to `'DRAGON'`)
when the generic `monsterType` is `'DRAGON'`, and the generic
`monsterType` (defaulting to `'UNKNOWN'`) otherwise. -/
theorem c7_objectives_amended (tl : TimelineData) (obj : Event)
    (hmem : obj ∈ allEvents tl) (htype : obj.type = "ELITE_MONSTER_KILL") :
    ∃ o ∈ _analyze_objectives tl,
      o.team = (if obj.killerTeamId = some 100 then "Blue" else "Red") ∧
      o.type = (if obj.monsterType.getD "UNKNOWN" = "DRAGON" then
        obj.monsterSubType.getD "DRAGON" else obj.monsterType.getD "UNKNOWN") := by
  refine ⟨mkObjective obj, ?_, rfl, rfl⟩
  exact List.mem_map_of_mem mkObjective
    (List.mem_filter.mpr ⟨hmem, by simp [htype]⟩)

/-- C7 witness: the amended statement applied to the concrete
baron-with-subtype timeline. -/
theorem c7_objectives_amended_witness :
    ∃ o ∈ _analyze_objectives tlScenarioC7, o.team = "Red" ∧ o.type = "BARON_NASHOR" := by
  obtain ⟨o, hmem, ht, hty⟩ := c7_objectives_amended tlScenarioC7
    (mkElite 90000 (some 200) (some "BARON_NASHOR") (some "SUBTYPE_X"))
    (by decide) (by decide)
  rw [if_neg (by decide)] at ht
  rw [if_neg (by decide)] at hty
  exact ⟨o, hmem, ht, hty⟩

theorem foldl_duoKillStep (p1_id p2_id : Nat) :
    ∀ (c : List Event) (a b : Nat),
      (c.foldl (duoKillStep p1_id p2_id) (a, b)).1 =
        a + c.countP (fun k => k.killerId = some p2_id ∧
          p1_id ∈ k.assistingParticipantIds.getD []) ∧
      (c.foldl (duoKillStep p1_id p2_id) (a, b)).2 =
        b + c.countP (fun k => k.killerId = some p1_id ∧
          p2_id ∈ k.assistingParticipantIds.getD []) := by
  intro c
  induction c with
  | nil => intro a b; simp
  | cons k c ih =>
    intro a b
    rw [List.foldl_cons]
    have hsplit : duoKillStep p1_id p2_id (a, b) k =
        (a + (if k.killerId = some p2_id ∧ p1_id ∈ k.assistingParticipantIds.getD []
              then 1 else 0),
         b + (if k.killerId = some p1_id ∧ p2_id ∈ k.assistingParticipantIds.getD []
              then 1 else 0)) := by
      rw [duoKillStep]
      by_cases h1 : (k.killerId = some p1_id ∧ p2_id ∈ k.assistingParticipantIds.getD []) <;>
        by_cases h2 : (k.killerId = some p2_id ∧ p1_id ∈ k.assistingParticipantIds.getD [])
      · simp only [if_pos h1, if_pos h2]
      · simp only [if_pos h1, if_neg h2]
        rfl
      · simp only [if_neg h1, if_pos h2]
        rfl
      · simp only [if_neg h1, if_neg h2]
        rfl
    rw [hsplit]
    obtain ⟨i1, i2⟩ :=
      ih (a + (if k.killerId = some p2_id ∧ p1_id ∈ k.assistingParticipantIds.getD []
            then 1 else 0))
         (b + (if k.killerId = some p1_id ∧ p2_id ∈ k.assistingParticipantIds.getD []
            then 1 else 0))
    constructor
    · rw [i1]
      by_cases h2 : (k.killerId = some p2_id ∧ p1_id ∈ k.assistingParticipantIds.getD [])
      · have hcnt : (k :: c).countP (fun kk => kk.killerId = some p2_id ∧
            p1_id ∈ kk.assistingParticipantIds.getD []) =
            c.countP (fun kk => kk.killerId = some p2_id ∧
              p1_id ∈ kk.assistingParticipantIds.getD []) + 1 := by
          rw [List.countP_cons]
          simp [h2]
        rw [hcnt, if_pos h2]
        omega
      · have hcnt : (k :: c).countP (fun kk => kk.killerId = some p2_id ∧
            p1_id ∈ kk.assistingParticipantIds.getD []) =
            c.countP (fun kk => kk.killerId = some p2_id ∧
              p1_id ∈ kk.assistingParticipantIds.getD []) := by
          rw [List.countP_cons]
          simp [h2]
        rw [hcnt, if_neg h2]
        omega
    · rw [i2]
      by_cases h1 : (k.killerId = some p1_id ∧ p2_id ∈ k.assistingParticipantIds.getD [])
      · have hcnt : (k :: c).countP (fun kk => kk.killerId = some p1_id ∧
            p2_id ∈ kk.assistingParticipantIds.getD []) =
            c.countP (fun kk => kk.killerId = some p1_id ∧
              p2_id ∈ kk.assistingParticipantIds.getD []) + 1 := by
          rw [List.countP_cons]
          simp [h1]
        rw [hcnt, if_pos h1]
        omega
      · have hcnt : (k :: c).countP (fun kk => kk.killerId = some p1_id ∧
            p2_id ∈ kk.assistingParticipantIds.getD []) =
            c.countP (fun kk => kk.killerId = some p1_id ∧
              p2_id ∈ kk.assistingParticipantIds.getD []) := by
          rw [List.countP_cons]
          simp [h1]
        rw [hcnt, if_neg h1]
        omega

/-- C6 counterexample: the claim fails for inconsistent payload pairs —
the timeline credits player 2 with one assisted kill while the match
payload says player 2 has zero kills, so
`p1_on_p2_kills = 1 > 0 = total_p2_kills`. -/
theorem c6_counterexample :
    ¬ (((_analyze_duo_dynamics matchOneAhri tlScenarioC6 duoP1 duoP2
        ).kill_collaboration.p1_on_p2_kills : Int) ≤
      (_analyze_duo_dynamics matchOneAhri tlScenarioC6 duoP1 duoP2
        ).kill_collaboration.total_p2_kills) := by
  decide

/-- C6 amended: whenever each player's match-payload kill total is at
least the number of timeline `CHAMPION_KILL` events credited to them
(which holds whenever the two payloads describe the same game), the
assisted-kill counters are bounded by the kill totals:
`p1_on_p2_kills ≤ total_p2_kills` and `p2_on_p1_kills ≤ total_p1_kills`. -/
theorem c6_duo_bounds (match_data : MatchData) (tl : TimelineData)
    (p1 p2 : Participant)
    (h1 : (((allEvents tl).filter (fun e => e.type = "CHAMPION_KILL")).countP
      (fun k => k.killerId = some p1.participantId) : Int) ≤ p1.kills)
    (h2 : (((allEvents tl).filter (fun e => e.type = "CHAMPION_KILL")).countP
      (fun k => k.killerId = some p2.participantId) : Int) ≤ p2.kills) :
    ((_analyze_duo_dynamics match_data tl p1 p2
      ).kill_collaboration.p1_on_p2_kills : Int) ≤
      (_analyze_duo_dynamics match_data tl p1 p2).kill_collaboration.total_p2_kills ∧
    ((_analyze_duo_dynamics match_data tl p1 p2
      ).kill_collaboration.p2_on_p1_kills : Int) ≤
      (_analyze_duo_dynamics match_data tl p1 p2).kill_collaboration.total_p1_kills := by
  have hfold := foldl_duoKillStep p1.participantId p2.participantId
    ((allEvents tl).filter (fun e => e.type = "CHAMPION_KILL")) 0 0
  have hc1 : (_analyze_duo_dynamics match_data tl p1 p2
      ).kill_collaboration.p1_on_p2_kills =
      ((allEvents tl).filter (fun e => e.type = "CHAMPION_KILL")).countP
        (fun k => k.killerId = some p2.participantId ∧
          p1.participantId ∈ k.assistingParticipantIds.getD []) := by
    rw [_analyze_duo_dynamics]
    simpa using hfold.1
  have hc2 : (_analyze_duo_dynamics match_data tl p1 p2
      ).kill_collaboration.p2_on_p1_kills =
      ((allEvents tl).filter (fun e => e.type = "CHAMPION_KILL")).countP
        (fun k => k.killerId = some p1.participantId ∧
          p2.participantId ∈ k.assistingParticipantIds.getD []) := by
    rw [_analyze_duo_dynamics]
    simpa using hfold.2
  have ht1 : (_analyze_duo_dynamics match_data tl p1 p2
      ).kill_collaboration.total_p1_kills = p1.kills := rfl
  have ht2 : (_analyze_duo_dynamics match_data tl p1 p2
      ).kill_collaboration.total_p2_kills = p2.kills := rfl
  constructor
  · rw [hc1, ht2]
    refine le_trans ?_ h2
    have hmono : ((allEvents tl).filter (fun e => e.type = "CHAMPION_KILL")).countP
        (fun k => k.killerId = some p2.participantId ∧
          p1.participantId ∈ k.assistingParticipantIds.getD []) ≤
        ((allEvents tl).filter (fun e => e.type = "CHAMPION_KILL")).countP
        (fun k => k.killerId = some p2.participantId) :=
      List.countP_mono_left (fun a _ ha => by
        simp only [decide_eq_true_eq] at ha ⊢
        exact ha.1)
    exact_mod_cast hmono
  · rw [hc2, ht1]
    refine le_trans ?_ h1
    have hmono : ((allEvents tl).filter (fun e => e.type = "CHAMPION_KILL")).countP
        (fun k => k.killerId = some p1.participantId ∧
          p2.participantId ∈ k.assistingParticipantIds.getD []) ≤
        ((allEvents tl).filter (fun e => e.type = "CHAMPION_KILL")).countP
        (fun k => k.killerId = some p1.participantId) :=
      List.countP_mono_left (fun a _ ha => by
        simp only [decide_eq_true_eq] at ha ⊢
        exact ha.1)
    exact_mod_cast hmono

/-- C6 witness: the amended statement applied to a consistent fixture
(player 2 has exactly one timeline kill and a match total of 1). -/
theorem c6_duo_bounds_witness :
    ((((allEvents tlScenarioC6).filter (fun e => e.type = "CHAMPION_KILL")).countP
      (fun k => k.killerId = some duoP2consistent.participantId) : Int) ≤
      duoP2consistent.kills) ∧
    ((_analyze_duo_dynamics matchOneAhri tlScenarioC6 duoP1 duoP2consistent
      ).kill_collaboration.p1_on_p2_kills : Int) ≤
      (_analyze_duo_dynamics matchOneAhri tlScenarioC6 duoP1 duoP2consistent
        ).kill_collaboration.total_p2_kills :=
  ⟨by decide,
   (c6_duo_bounds matchOneAhri tlScenarioC6 duoP1 duoP2consistent
     (by decide) (by decide)).1⟩

theorem tableLookup_tableAppend (k : Nat) (s : Spike) :
    ∀ (t : SpikeTable) (k' : Nat) (l' : List Spike),
      tableLookup (tableAppend t k s) k' = some l' →
      ∃ l, tableLookup t k' = some l ∧ (l' = l ∨ (k' = k ∧ l' = l ++ [s])) := by
  intro t
  induction t with
  | nil => intro k' l' h; simp [tableAppend, tableLookup] at h
  | cons kv rest ih =>
    intro k' l' h
    obtain ⟨a, b⟩ := kv
    rw [tableAppend, List.map_cons] at h
    by_cases hka : a = k
    · simp only [if_pos hka] at h
      by_cases hk' : a = k'
      · rw [tableLookup, if_pos hk'] at h
        cases h
        exact ⟨b, by rw [tableLookup, if_pos hk'], Or.inr ⟨hk' ▸ hka.symm ▸ rfl, rfl⟩⟩
      · rw [tableLookup, if_neg hk'] at h
        obtain ⟨l, hl, hd⟩ := ih k' l' (by exact h)
        exact ⟨l, by rw [tableLookup, if_neg hk']; exact hl, hd⟩
    · simp only [if_neg hka] at h
      by_cases hk' : a = k'
      · rw [tableLookup, if_pos hk'] at h
        cases h
        exact ⟨b, by rw [tableLookup, if_pos hk'], Or.inl rfl⟩
      · rw [tableLookup, if_neg hk'] at h
        obtain ⟨l, hl, hd⟩ := ih k' l' (by exact h)
        exact ⟨l, by rw [tableLookup, if_neg hk']; exact hl, hd⟩

theorem noDupKS_append_nonKS (l : List Spike) (s : Spike)
    (hP : noDupKS l) (hs : s.type ≠ "Killing Spree") : noDupKS (l ++ [s]) := by
  rw [noDupKS, List.pairwise_append]
  refine ⟨hP, List.pairwise_singleton _ s, ?_⟩
  intro a _ b hb
  rw [List.mem_singleton] at hb
  subst hb
  intro hcon
  exact hs hcon.2.1

theorem noDupKS_append_guarded (l : List Spike) (s : Spike)
    (hP : noDupKS l)
    (hguard : ¬ (l.any (fun x => x.time_minutes = s.time_minutes ∧
      x.type = "Killing Spree") = true)) : noDupKS (l ++ [s]) := by
  rw [noDupKS, List.pairwise_append]
  refine ⟨hP, List.pairwise_singleton _ s, ?_⟩
  intro a ha b hb
  rw [List.mem_singleton] at hb
  subst hb
  intro hcon
  apply hguard
  rw [List.any_eq_true]
  exact ⟨a, ha, by simp [hcon.2.2.symm, hcon.1]⟩

theorem spikeInv_tableAppend_nonKS (t : SpikeTable) (k : Nat) (s : Spike)
    (hInv : spikeInv t) (hs : s.type ≠ "Killing Spree") :
    spikeInv (tableAppend t k s) := by
  intro k' l' h
  obtain ⟨l, hl, hd⟩ := tableLookup_tableAppend k s t k' l' h
  rcases hd with rfl | ⟨rfl, rfl⟩
  · exact hInv k' _ hl
  · exact noDupKS_append_nonKS _ s (hInv _ _ hl) hs

theorem spikeInv_spreeStep (kills : List Event) (ia : Nat × Event) (t : SpikeTable)
    (hInv : spikeInv t) : spikeInv (spreeStep kills t ia) := by
  rw [spreeStep]
  dsimp only
  by_cases h0 : ia.2.killerId.getD 0 = 0
  · rw [if_pos h0]; exact hInv
  · rw [if_neg h0]
    by_cases h2 : 2 ≤ 1 + (kills.drop (ia.1 + 1)).countP
        (fun next_kill => next_kill.killerId = some (ia.2.killerId.getD 0) ∧
          next_kill.timestamp ≤ ia.2.timestamp + 30000)
    · rw [if_pos h2]
      by_cases hany : ((tableLookup t (ia.2.killerId.getD 0)).getD []).any
          (fun s => s.time_minutes =
            round2 ((ia.2.timestamp : ℚ) / 60000) ∧ s.type = "Killing Spree") = true
      · rw [if_pos hany]; exact hInv
      · rw [if_neg hany]
        intro k' l' h
        obtain ⟨l, hl, hd⟩ := tableLookup_tableAppend _ _ t k' l' h
        rcases hd with rfl | ⟨rfl, rfl⟩
        · exact hInv k' _ hl
        · refine noDupKS_append_guarded _ _ (hInv _ _ hl) ?_
          rw [hl] at hany
          exact hany
    · rw [if_neg h2]; exact hInv

theorem foldl_preserves {α β : Type} (P : β → Prop) (f : β → α → β) :
    ∀ (l : List α) (b : β), P b → (∀ x a, P x → P (f x a)) → P (l.foldl f b) := by
  intro l
  induction l with
  | nil => intro b hb _; exact hb
  | cons a l ih =>
    intro b hb hstep
    rw [List.foldl_cons]
    exact ih (f b a) (hstep b a hb) hstep

theorem spikeInv_init : spikeInv initSpikeTable := by
  intro k l h
  have : ∀ t : SpikeTable, (∀ kv ∈ t, kv.2 = ([] : List Spike)) →
      ∀ k l, tableLookup t k = some l → l = [] := by
    intro t
    induction t with
    | nil => intro _ k l h; cases h
    | cons kv rest ih =>
      intro hall k l h
      rw [tableLookup] at h
      by_cases hk : kv.1 = k
      · rw [if_pos hk] at h
        cases h
        exact hall kv (List.mem_cons_self kv rest)
      · rw [if_neg hk] at h
        exact ih (fun x hx => hall x (List.mem_cons_of_mem kv hx)) k l h
  rw [this initSpikeTable (by decide) k l h]
  exact List.Pairwise.nil

/-- C9: in the table returned by `_track_power_spikes`, no participant
id has two `'Killing Spree'` entries with the same `time_minutes` value
— the dedup guard of the spree loop makes every per-participant spike
list `noDupKS`. -/
theorem c9_spree_no_duplicates (tl : TimelineData) (k : Nat) (l : List Spike)
    (h : tableLookup (_track_power_spikes tl) k = some l) : noDupKS l := by
  revert h
  suffices hInv : spikeInv (_track_power_spikes tl) by exact hInv k l
  rw [_track_power_spikes]
  apply foldl_preserves spikeInv
  · apply foldl_preserves spikeInv
    · exact spikeInv_init
    · intro x a hx
      exact spikeInv_tableAppend_nonKS x (a.participantId.getD 0)
        { time_minutes := round2 ((a.timestamp : ℚ) / 60000)
        , type := "Item Completion"
        , detail := "Item ID " ++ toString (a.itemId.getD 0) } hx (by simp)
  · intro x a hx
    exact spikeInv_spreeStep _ a x hx

/-- C9 witness: the empty timeline yields the initial table, whose entry
for participant 1 is the empty list. -/
theorem c9_spree_no_duplicates_witness :
    tableLookup (_track_power_spikes tlEmpty) 1 = some [] ∧ noDupKS [] :=
  ⟨by decide, c9_spree_no_duplicates tlEmpty 1 [] (by decide)⟩

theorem fillDefault_ne_nil (l : List String) (s : String) : fillDefault l s ≠ [] := by
  rw [fillDefault]
  by_cases h : l.isEmpty
  · rw [if_pos h]
    simp
  · rw [if_neg h]
    simpa using h

/-- C8: every death-analysis entry has non-empty `context` and `outcome`
lists (the placeholder fill guarantees it), and a death followed by no
`ELITE_MONSTER_KILL` within the next 60 s gets exactly
`["No immediate objective change."]` as its outcome. -/
theorem c8_death_analysis (tl : TimelineData) (m : MatchData) (pid : Nat)
    (spikes : SpikeTable) :
    (∀ e ∈ _generate_death_analysis tl m pid spikes,
      e.context ≠ [] ∧ e.outcome ≠ []) ∧
    (∀ death ∈ playerDeaths tl pid,
      (∀ ev ∈ allEvents tl, ¬ outcomeEventP death.timestamp ev) →
      (analyzeDeath tl m pid spikes death).outcome =
        ["No immediate objective change."]) := by
  constructor
  · intro e he
    rw [_generate_death_analysis] at he
    obtain ⟨death, _, rfl⟩ := List.mem_map.mp he
    constructor
    · exact fillDefault_ne_nil _ _
    · exact fillDefault_ne_nil _ _
  · intro death _ hno
    have hfind : (allEvents tl).find? (outcomeEventP death.timestamp) = none :=
      List.find?_eq_none.mpr hno
    dsimp only [analyzeDeath]
    rw [hfind]
    simp [fillDefault]

/-- C8 witness: a death with no elite-monster kill in the following
minute yields the placeholder outcome. -/
theorem c8_death_analysis_witness :
    (mkKill 60000 6 1 [] ∈ playerDeaths tlScenarioC8 1) ∧
    (analyzeDeath tlScenarioC8 matchOneAhri 1 [] (mkKill 60000 6 1 [])).outcome =
      ["No immediate objective change."] :=
  ⟨by decide,
   (c8_death_analysis tlScenarioC8 matchOneAhri 1 []).2 (mkKill 60000 6 1 [])
     (by decide) (by decide)⟩

theorem takeWhile_getElem? {α : Type} (p : α → Bool) :
    ∀ (l : List α) (m : Nat), m < (l.takeWhile p).length →
      (l.takeWhile p)[m]? = l[m]? := by
  intro l
  induction l with
  | nil => intro m hm; simp at hm
  | cons a t ih =>
    intro m hm
    rw [List.takeWhile_cons] at hm ⊢
    by_cases hp : p a
    · rw [if_pos hp] at hm ⊢
      cases m with
      | zero => simp
      | succ m =>
        rw [List.getElem?_cons_succ, List.getElem?_cons_succ]
        exact ih m (by simpa using hm)
    · rw [if_neg hp] at hm
      simp at hm

theorem takeWhile_length_le {α : Type} (p : α → Bool) (l : List α) :
    (l.takeWhile p).length ≤ l.length := by
  induction l with
  | nil => simp
  | cons a t ih =>
    rw [List.takeWhile_cons]
    by_cases hp : p a
    · rw [if_pos hp]
      simpa using ih
    · rw [if_neg hp]
      simp

theorem clusterAt_length_le (kills : List Event) (i : Nat) (hi : i < kills.length) :
    i + (clusterAt kills i).length ≤ kills.length := by
  rw [clusterAt, List.getElem?_eq_getElem hi]
  have h1 := takeWhile_length_le
    (fun next_kill : Event => decide (next_kill.timestamp ≤ kills[i].timestamp + 20 * 1000))
    (kills.drop (i + 1))
  have h2 : (kills.drop (i + 1)).length = kills.length - (i + 1) := by simp
  simp only [List.length_cons]
  omega

theorem clusterAt_getElem? (kills : List Event) (i : Nat) (hi : i < kills.length)
    (m : Nat) (hm : m < (clusterAt kills i).length) :
    (clusterAt kills i)[m]? = kills[i + m]? := by
  have hm' := hm
  rw [clusterAt, List.getElem?_eq_getElem hi] at hm' ⊢
  cases m with
  | zero =>
    rw [List.getElem?_cons_zero]
    have hadd : i + 0 = i := rfl
    rw [hadd, List.getElem?_eq_getElem hi]
  | succ m =>
    rw [List.getElem?_cons_succ]
    have hmt : m < ((kills.drop (i + 1)).takeWhile
        (fun next_kill => next_kill.timestamp ≤ kills[i].timestamp + 20 * 1000)).length := by
      simpa using hm'
    rw [takeWhile_getElem? _ _ m hmt, List.getElem?_drop]
    congr 1
    omega

theorem clusterAt_elem_char (kills : List Event) (i : Nat) (hi : i < kills.length)
    (k : Event) (hk : k ∈ clusterAt kills i) :
    ∃ m, m < (clusterAt kills i).length ∧
      ∃ hj : i + m < kills.length, k = kills[i + m] := by
  obtain ⟨⟨m, hm⟩, hg⟩ := List.mem_iff_get.mp hk
  refine ⟨m, hm, ?_⟩
  have h1 : (clusterAt kills i)[m]? = some k := by
    rw [List.getElem?_eq_getElem hm]
    exact congrArg some hg
  rw [clusterAt_getElem? kills i hi m hm] at h1
  obtain ⟨hj, he⟩ := List.getElem?_eq_some.mp h1
  exact ⟨hj, he.symm⟩

theorem clusterAt_index_mem_set (kills : List Event) (hnd : kills.Nodup) (i : Nat)
    (hi : i < kills.length) (m : Nat) (hm : m < (clusterAt kills i).length)
    (hj : i + m < kills.length) :
    i + m ∈ ((clusterAt kills i).map (fun kill => kills.indexOf kill)).toFinset := by
  rw [List.mem_toFinset, List.mem_map]
  have h1 : (clusterAt kills i)[m]? = some kills[i + m] := by
    rw [clusterAt_getElem? kills i hi m hm]
    exact List.getElem?_eq_getElem hj
  have hmem : kills[i + m] ∈ clusterAt kills i := by
    obtain ⟨hb, he⟩ := List.getElem?_eq_some.mp h1
    rw [← he]
    exact List.getElem_mem hb
  exact ⟨kills[i + m], hmem, indexOf_getElem_of_nodup kills hnd (i + m) hj⟩

theorem teamfights_fold_inv (kills : List Event) (hnd : kills.Nodup) :
    ∀ n : Nat,
      (∀ c ∈ ((List.range n).foldl (teamfightsStep kills) ([], ∅)).1,
        ∃ j, j < n ∧ j < kills.length ∧ c = clusterAt kills j ∧
          ∀ m, m < c.length →
            (j + m) ∈ ((List.range n).foldl (teamfightsStep kills) ([], ∅)).2) ∧
      List.Pairwise (fun c1 c2 => ∀ k ∈ c1, k ∉ c2)
        ((List.range n).foldl (teamfightsStep kills) ([], ∅)).1 := by
  intro n
  induction n with
  | zero =>
    constructor
    · intro c hc
      simp at hc
    · exact List.Pairwise.nil
  | succ n ih =>
    obtain ⟨ih1, ih2⟩ := ih
    have hsucc : (List.range (n + 1)).foldl (teamfightsStep kills) ([], ∅) =
        teamfightsStep kills
          ((List.range n).foldl (teamfightsStep kills) ([], ∅)) n := by
      rw [List.range_succ, List.foldl_append]
      rfl
    rw [hsucc]
    simp only [teamfightsStep]
    by_cases hproc : n ∈ ((List.range n).foldl (teamfightsStep kills) ([], ∅)).2
    · rw [if_pos hproc]
      constructor
      · intro c hc
        obtain ⟨j, hj, hjl, hceq, hsub⟩ := ih1 c hc
        exact ⟨j, Nat.lt_succ_of_lt hj, hjl, hceq, hsub⟩
      · exact ih2
    · rw [if_neg hproc]
      by_cases hlen : 3 ≤ (clusterAt kills n).length
      · rw [if_pos hlen]
        have hn : n < kills.length := by
          by_contra hge
          have hnil : clusterAt kills n = [] := by
            rw [clusterAt, List.getElem?_eq_none (by omega)]
          rw [hnil] at hlen
          simp at hlen
        constructor
        · intro c hc
          rw [List.mem_append, List.mem_singleton] at hc
          rcases hc with hc | rfl
          · obtain ⟨j, hj, hjl, hceq, hsub⟩ := ih1 c hc
            exact ⟨j, Nat.lt_succ_of_lt hj, hjl, hceq, fun m hm =>
              Finset.mem_union_left _ (hsub m hm)⟩
          · refine ⟨n, Nat.lt_succ_self n, hn, rfl, ?_⟩
            intro m hm
            refine Finset.mem_union_right _ ?_
            have hj : n + m < kills.length := by
              have := clusterAt_length_le kills n hn
              omega
            exact clusterAt_index_mem_set kills hnd n hn m hm hj
        · rw [List.pairwise_append]
          refine ⟨ih2, List.pairwise_singleton _ _, ?_⟩
          intro c1 hc1 c2 hc2 k hk1 hk2
          rw [List.mem_singleton] at hc2
          subst hc2
          obtain ⟨j, hj, hjl, hceq, hsub⟩ := ih1 c1 hc1
          obtain ⟨m1, hm1, hb1, he1⟩ := clusterAt_elem_char kills j hjl k (hceq ▸ hk1)
          obtain ⟨m2, hm2, hb2, he2⟩ := clusterAt_elem_char kills n hn k hk2
          have hidx : j + m1 = n + m2 := by
            have heq : kills[j + m1] = kills[n + m2] := by rw [← he1, ← he2]
            exact (List.Nodup.getElem_inj_iff hnd).mp heq
          have hm1' : m1 < c1.length := by rw [hceq]; exact hm1
          have hnge : n ≥ j + c1.length := by
            by_contra hlt
            push_neg at hlt
            apply hproc
            have hjn : j + (n - j) = n := by omega
            have := hsub (n - j) (by omega)
            rwa [hjn] at this
          omega
      · rw [if_neg hlen]
        constructor
        · intro c hc
          obtain ⟨j, hj, hjl, hceq, hsub⟩ := ih1 c hc
          exact ⟨j, Nat.lt_succ_of_lt hj, hjl, hceq, hsub⟩
        · exact ih2

/-- C10: when the timeline's CHAMPION_KILL events are pairwise distinct,
the clusters emitted by the fight-clustering pass are pairwise disjoint
— no kill event is counted in two emitted fight records (each record of
`_analyze_teamfights` is `_fight_summary` of one cluster). -/
theorem c10_no_double_counting (tl : TimelineData)
    (hnd : (killEvents tl).Nodup) :
    List.Pairwise (fun c1 c2 => ∀ k ∈ c1, k ∉ c2)
      (teamfightClusters (killEvents tl)) := by
  rw [teamfightClusters]
  exact (teamfights_fold_inv (killEvents tl) hnd (killEvents tl).length).2

/-- C10 witness: the concrete 3-kill scenario has distinct kill events
and its emitted clusters are pairwise disjoint. -/
theorem c10_no_double_counting_witness :
    (killEvents tlScenarioC1).Nodup ∧
    List.Pairwise (fun c1 c2 => ∀ k ∈ c1, k ∉ c2)
      (teamfightClusters (killEvents tlScenarioC1)) :=
  ⟨by decide, c10_no_double_counting tlScenarioC1 (by decide)⟩

theorem upsert_length {β : Type} (l : List (String × β)) (k : String) (v : β) :
    (upsert l k v).length = l.length ∨ (upsert l k v).length = l.length + 1 := by
  rw [upsert]
  by_cases h : l.any (fun kv => kv.1 = k)
  · rw [if_pos h]
    left
    simp
  · rw [if_neg h]
    right
    simp

theorem upsert_fresh {β : Type} (l : List (String × β)) (k : String) (v : β)
    (h : ∀ kv ∈ l, kv.1 ≠ k) : upsert l k v = l ++ [(k, v)] := by
  rw [upsert, if_neg]
  intro hany
  obtain ⟨x, hx, he⟩ := List.any_eq_true.mp hany
  exact h x hx (by simpa using he)

theorem foldl_length_le {α β : Type} (f : List β → α → List β)
    (hf : ∀ b a, (f b a).length ≤ b.length + 1) :
    ∀ (l : List α) (acc : List β), (l.foldl f acc).length ≤ acc.length + l.length := by
  intro l
  induction l with
  | nil => intro acc; simp
  | cons a t ih =>
    intro acc
    rw [List.foldl_cons]
    have h1 := ih (f acc a)
    have h2 := hf acc a
    simp only [List.length_cons]
    omega

theorem filterMap_length_countP {α β : Type} (f : α → Option β) :
    ∀ l : List α, (l.filterMap f).length = l.countP (fun a => (f a).isSome) := by
  intro l
  induction l with
  | nil => simp
  | cons a t ih =>
    rw [List.filterMap_cons, List.countP_cons]
    cases hf : f a with
    | none => simp [hf, ih]
    | some b => simp [hf, ih]

theorem resolve_fold_filterMap (match_data : MatchData) :
    ∀ (puuids : List String) (acc : List (String × Participant)),
      puuids.Nodup →
      (∀ u ∈ puuids, ∀ kv ∈ acc, kv.1 ≠ u) →
      puuids.foldl (resolvePlayersStep match_data) acc =
        acc ++ puuids.filterMap
          (fun u => (_get_player_participant_data match_data u).map (fun p => (u, p))) := by
  intro puuids
  induction puuids with
  | nil => intro acc _ _; simp
  | cons u rest ih =>
    intro acc hnd hfresh
    rw [List.foldl_cons]
    have hndr : rest.Nodup := (List.nodup_cons.mp hnd).2
    have hnotmem : u ∉ rest := (List.nodup_cons.mp hnd).1
    cases hres : _get_player_participant_data match_data u with
    | none =>
      have hstep : resolvePlayersStep match_data acc u = acc := by
        rw [resolvePlayersStep, hres]
      rw [hstep, ih acc hndr
        (fun u' hu' kv hkv => hfresh u' (List.mem_cons_of_mem u hu') kv hkv),
        List.filterMap_cons, hres]
      simp
    | some p =>
      have hfreshu : ∀ kv ∈ acc, kv.1 ≠ u :=
        fun kv hkv => hfresh u (List.mem_cons_self u rest) kv hkv
      have hstep : resolvePlayersStep match_data acc u = acc ++ [(u, p)] := by
        rw [resolvePlayersStep, hres]
        exact upsert_fresh acc u p hfreshu
      have hfresh' : ∀ u' ∈ rest, ∀ kv ∈ acc ++ [(u, p)], kv.1 ≠ u' := by
        intro u' hu' kv hkv
        rw [List.mem_append, List.mem_singleton] at hkv
        rcases hkv with hkv | rfl
        · exact hfresh u' (List.mem_cons_of_mem u hu') kv hkv
        · intro he
          have heq : u = u' := he
          exact hnotmem (heq ▸ hu')
      rw [hstep, ih (acc ++ [(u, p)]) hndr hfresh', List.filterMap_cons, hres]
      simp

theorem report_fold_length (match_data : MatchData) (timeline_data : Option TimelineData)
    (power_spikes : SpikeTable) :
    ∀ (entries : List (String × Participant)) (acc : List (String × Report)),
      List.Pairwise (fun a b => a.2.championName ≠ b.2.championName) entries →
      (∀ e ∈ entries, ∀ r ∈ acc, r.1 ≠ e.2.championName) →
      (entries.foldl (reportStep match_data timeline_data power_spikes) acc).length =
        acc.length + entries.length := by
  intro entries
  induction entries with
  | nil => intro acc _ _; simp
  | cons e rest ih =>
    intro acc hpw hfresh
    rw [List.foldl_cons]
    have hstep : reportStep match_data timeline_data power_spikes acc e =
        acc ++ [(e.2.championName,
          buildReport match_data timeline_data power_spikes e.2)] := by
      rw [reportStep]
      exact upsert_fresh acc e.2.championName _
        (fun r hr => hfresh e (List.mem_cons_self e rest) r hr)
    have hfresh' : ∀ e' ∈ rest,
        ∀ r ∈ acc ++ [(e.2.championName,
          buildReport match_data timeline_data power_spikes e.2)],
        r.1 ≠ e'.2.championName := by
      intro e' he' r hr
      rw [List.mem_append, List.mem_singleton] at hr
      rcases hr with hr | rfl
      · exact hfresh e' (List.mem_cons_of_mem e he') r hr
      · exact (List.rel_of_pairwise_cons hpw he')
    rw [hstep, ih _ hpw.of_cons hfresh']
    simp only [List.length_append, List.length_cons, List.length_nil]
    omega

theorem countP_isSome_add_isNone {α β : Type} (f : α → Option β) :
    ∀ l : List α,
      l.countP (fun a => (f a).isSome) + l.countP (fun a => (f a).isNone) = l.length := by
  intro l
  induction l with
  | nil => simp
  | cons a t ih =>
    rw [List.countP_cons, List.countP_cons]
    cases hf : f a <;> simp [hf] <;> omega

theorem reports_foldl_le (match_data : MatchData) (timeline_data : Option TimelineData)
    (ps : SpikeTable) (puuids : List String) :
    ((puuids.foldl (resolvePlayersStep match_data) []).foldl
      (reportStep match_data timeline_data ps) []).length ≤ puuids.length := by
  have hresolve_bound : ∀ (b : List (String × Participant)) (a : String),
      (resolvePlayersStep match_data b a).length ≤ b.length + 1 := by
    intro b a
    rw [resolvePlayersStep]
    cases _get_player_participant_data match_data a with
    | none =>
      dsimp only
      omega
    | some p =>
      dsimp only
      rcases upsert_length b a p with h | h <;> omega
  have hreport_bound : ∀ (b : List (String × Report)) (a : String × Participant),
      (reportStep match_data timeline_data ps b a).length ≤ b.length + 1 := by
    intro b a
    rw [reportStep]
    rcases upsert_length b a.2.championName
      (buildReport match_data timeline_data ps a.2) with h | h <;> omega
  have h1 := foldl_length_le (resolvePlayersStep match_data) hresolve_bound puuids []
  have h2 := foldl_length_le _ hreport_bound
    (puuids.foldl (resolvePlayersStep match_data) []) []
  simp only [List.length_nil, Nat.zero_add] at h1 h2
  exact le_trans h2 h1

/-- C3 counterexample: with a duplicated resolvable PUUID in the list,
`individual_reports` has one entry, not `len(puuids) - unresolvable
= 2` — the dict keyed by PUUID (and then champion name) collapses
duplicates. -/
theorem c3_counterexample :
    (analyze_match_reports matchOneAhri none ["puuid-a", "puuid-a"]).length = 1 ∧
    ¬ ((analyze_match_reports matchOneAhri none ["puuid-a", "puuid-a"]).length =
        (["puuid-a", "puuid-a"] : List String).length -
          (["puuid-a", "puuid-a"] : List String).countP
            (fun u => (_get_player_participant_data matchOneAhri u).isNone)) := by
  exact ⟨by decide, by decide⟩

/-- C3 amended: `len(individual_reports) ≤ len(puuids_to_analyze)`
always, and an unresolvable PUUID is skipped without aborting the rest;
when the requested PUUIDs are pairwise distinct and distinct resolvable
PUUIDs carry distinct champion names, `len(individual_reports)` equals
`len(puuids_to_analyze)` minus the number of unresolvable PUUIDs. -/
theorem c3_reports_amended (match_data : MatchData)
    (timeline_data : Option TimelineData) (puuids_to_analyze : List String) :
    (analyze_match_reports match_data timeline_data puuids_to_analyze).length ≤
      puuids_to_analyze.length ∧
    (puuids_to_analyze.Nodup →
      (∀ u₁ ∈ puuids_to_analyze, ∀ u₂ ∈ puuids_to_analyze, ∀ p₁ p₂,
        _get_player_participant_data match_data u₁ = some p₁ →
        _get_player_participant_data match_data u₂ = some p₂ →
        p₁.championName = p₂.championName → u₁ = u₂) →
      (analyze_match_reports match_data timeline_data puuids_to_analyze).length +
        puuids_to_analyze.countP
          (fun u => (_get_player_participant_data match_data u).isNone) =
        puuids_to_analyze.length) := by
  constructor
  · exact reports_foldl_le match_data timeline_data _ puuids_to_analyze
  · intro hnd hinj
    rw [analyze_match_reports.eq_def]
    have hall : puuids_to_analyze.foldl (resolvePlayersStep match_data) [] =
        puuids_to_analyze.filterMap
          (fun u => (_get_player_participant_data match_data u).map
            (fun p => (u, p))) := by
      have := resolve_fold_filterMap match_data puuids_to_analyze [] hnd
        (by intro u _ kv hkv; simp at hkv)
      simpa using this
    rw [hall]
    have hpw : List.Pairwise (fun a b : String × Participant =>
        a.2.championName ≠ b.2.championName)
        (puuids_to_analyze.filterMap
          (fun u => (_get_player_participant_data match_data u).map
            (fun p => (u, p)))) := by
      have hnd' : List.Pairwise
          (fun a b => a ∈ puuids_to_analyze ∧ b ∈ puuids_to_analyze ∧ a ≠ b)
          puuids_to_analyze :=
        List.Pairwise.imp_of_mem (fun ha hb hr => ⟨ha, hb, hr⟩) hnd
      refine List.Pairwise.filterMap _ ?_ hnd'
      intro u₁ u₂ hr kv₁ hkv₁ kv₂ hkv₂
      obtain ⟨hm₁, hm₂, hne⟩ := hr
      rw [Option.mem_def, Option.map_eq_some'] at hkv₁ hkv₂
      obtain ⟨p₁, hp₁, rfl⟩ := hkv₁
      obtain ⟨p₂, hp₂, rfl⟩ := hkv₂
      intro hc
      exact hne (hinj u₁ hm₁ u₂ hm₂ p₁ p₂ hp₁ hp₂ hc)
    have hlen := report_fold_length match_data timeline_data
      (match timeline_data with
        | some tl => _track_power_spikes tl
        | none => [])
      (puuids_to_analyze.filterMap
        (fun u => (_get_player_participant_data match_data u).map (fun p => (u, p))))
      [] hpw (by intro e _ r hr; simp at hr)
    rw [hlen, filterMap_length_countP]
    have hsome : puuids_to_analyze.countP
        (fun u => ((_get_player_participant_data match_data u).map
          (fun p => (u, p))).isSome) =
        puuids_to_analyze.countP
          (fun u => (_get_player_participant_data match_data u).isSome) := by
      apply List.countP_congr
      intro u _
      cases _get_player_participant_data match_data u <;> simp
    rw [hsome]
    simp only [List.length_nil, Nat.zero_add]
    exact countP_isSome_add_isNone
      (fun u => _get_player_participant_data match_data u) puuids_to_analyze

/-- C3 witness: the amended statement applied to two distinct resolvable
PUUIDs of distinct champions. -/
theorem c3_reports_amended_witness :
    (["puuid-a", "puuid-b"] : List String).Nodup ∧
    (analyze_match_reports matchTwoDistinct none ["puuid-a", "puuid-b"]).length +
      (["puuid-a", "puuid-b"] : List String).countP
        (fun u => (_get_player_participant_data matchTwoDistinct u).isNone) =
      (["puuid-a", "puuid-b"] : List String).length := by
  refine ⟨by decide,
    (c3_reports_amended matchTwoDistinct none ["puuid-a", "puuid-b"]).2
      (by decide) ?_⟩
  intro u₁ h₁ u₂ h₂ p₁ p₂ e₁ e₂ hc
  have h₁' : u₁ = "puuid-a" ∨ u₁ = "puuid-b" := by simpa using h₁
  have h₂' : u₂ = "puuid-a" ∨ u₂ = "puuid-b" := by simpa using h₂
  have ra : _get_player_participant_data matchTwoDistinct "puuid-a" =
      some (mkParticipant "puuid-a" 1 "Ahri" 0) := by decide
  have rb : _get_player_participant_data matchTwoDistinct "puuid-b" =
      some (mkParticipant "puuid-b" 2 "Garen" 0) := by decide
  rcases h₁' with rfl | rfl <;> rcases h₂' with rfl | rfl
  · rfl
  · rw [ra] at e₁
    rw [rb] at e₂
    cases e₁
    cases e₂
    exact absurd hc (by decide)
  · rw [rb] at e₁
    rw [ra] at e₂
    cases e₁
    cases e₂
    exact absurd hc (by decide)
  · rfl

end RiotAnalyzer
